import Mathlib

/-!
DASH manifest analyzer: traversal and field extraction.

A shallow embedding of `parser.go`: the summary model, the field extractors
(`extractCodec`, `extractResolution`, `extractBitrate`,
`extractChannelDescriptors`, `extractChannelConfiguration`, `extractLanguage`)
and the traversal loop of `parsePlaylist`, followed by theorems about them.

Nullable pointer fields of the Go structs are `Option`s, `int64` values are
`Int`s (the program never does arithmetic on them, it only compares with zero
and prints them), Go slices are `List`s, Go strings are `String`s (the program
only compares them with literals and concatenates them), and the text written
by `fmt.Printf` is collected as a list of lines.
-/

namespace Analyzer

/-! ## Document tree -/

/-- Modelled from the spec: the `DescriptorType` struct of the go-dash `mpd`
package (an AdaptationSet-level channel descriptor); the program reads only
its optional `Value`. -/
structure DescriptorType where
  SchemeIDURI : Option String
  Value : Option String
  ID : Option String
  deriving DecidableEq, Repr

/-- Modelled from the spec: the `AudioChannelConfiguration` struct of the
go-dash `mpd` package (the Representation-level single channel configuration);
the program reads only its optional `Value`. -/
structure AudioChannelConfiguration where
  SchemeIDURI : Option String
  Value : Option String
  deriving DecidableEq, Repr

/-- Modelled from the spec: the fields of the go-dash `Representation` struct
that the program reads: optional `Codecs`, optional `Bandwidth`, optional
`Width`/`Height` (all `*int64`), optional single `AudioChannelConfiguration`. -/
structure Representation where
  Codecs : Option String
  Bandwidth : Option Int
  Width : Option Int
  Height : Option Int
  AudioChannelConfiguration : Option AudioChannelConfiguration
  deriving DecidableEq, Repr

/-- Modelled from the spec: the fields of the go-dash `AdaptationSet` struct
that the program reads: optional `ContentType`, `MimeType`, `Codecs`, `Lang`,
the channel descriptors and the ordered Representations. -/
structure AdaptationSet where
  ContentType : Option String
  MimeType : Option String
  Codecs : Option String
  Lang : Option String
  AudioChannelConfiguration : List DescriptorType
  Representations : List Representation
  deriving DecidableEq, Repr

/-- Modelled from the spec: a go-dash `Period`, an ordered sequence of
AdaptationSets. -/
structure Period where
  AdaptationSets : List AdaptationSet
  deriving DecidableEq, Repr

/-- Modelled from the spec: the go-dash `MPD` document tree, an ordered
sequence of Periods. -/
structure MPD where
  Periods : List Period
  deriving DecidableEq, Repr

/-! ## Constants and summary model (`parser.go` lines 11-36) -/

def audioContentType : String := "audio"
def videoContentType : String := "video"
def audioMimeType : String := "audio/mp4"
def videoMimeType : String := "video/mp4"
def unknown : String := "unknown"

structure VideoStream where
  Codec : String
  Bitrate : String
  Resolution : String
  deriving DecidableEq, Repr

structure AudioStream where
  Codec : String
  Bitrate : String
  Channels : String
  Language : String
  deriving DecidableEq, Repr

structure ManifestSummary where
  Audios : List AudioStream
  Videos : List VideoStream
  deriving DecidableEq, Repr

/-! ## Library formatting -/

/-- Base-10 rendering of a signed integer, as done by `strconv.FormatInt(i, 10)`
and by the `%d` verb of `fmt.Sprintf`: the decimal digits of the magnitude,
preceded by `-` for a negative value. -/
def FormatInt (i : Int) : String :=
  match i with
  | Int.ofNat n => Nat.repr n
  | Int.negSucc n => "-" ++ Nat.repr (n + 1)

/-- Text of `strings.Join(elems, sep)`: the elements in order with `sep`
between consecutive ones. -/
def Join (elems : List String) (sep : String) : String :=
  sep.intercalate elems

/-! ## Field extractors (`parser.go` lines 95-150) -/

def extractCodec (codecs : Option String) : String :=
  match codecs with
  | none => unknown
  | some c => if c = "" then unknown else c

def extractResolution (width height : Option Int) : String :=
  match width, height with
  | some w, some h =>
    if w = 0 ∨ h = 0 then unknown else FormatInt w ++ "x" ++ FormatInt h
  | _, _ => unknown

def extractBitrate (bandwidth : Option Int) : String :=
  match bandwidth with
  | none => unknown
  | some b => if b = 0 then unknown else FormatInt b

/-- The loop of `extractChannelDescriptors` (lines 120-127): the Values that
are present and non-empty, in order. -/
def collectChannels (descriptors : List DescriptorType) : List String :=
  descriptors.foldl
    (fun channels descriptor =>
      match descriptor.Value with
      | none => channels
      | some v => if v = "" then channels else channels ++ [v])
    []

def extractChannelDescriptors (descriptors : List DescriptorType) : String :=
  let channels := collectChannels descriptors
  if channels.length = 0 then unknown else Join channels ","

def extractChannelConfiguration
    (channelConfiguration : Option AudioChannelConfiguration) : String :=
  match channelConfiguration with
  | none => unknown
  | some cc =>
    match cc.Value with
    | none => unknown
    | some v => if v = "" then unknown else v

def extractLanguage (lang : Option String) : String :=
  match lang with
  | none => unknown
  | some l => if l = "" then unknown else l

/-! ## Traversal (`parser.go` lines 39-93) -/

/-- Program state threaded through the loops of `parsePlaylist`: the summary
under construction and the lines printed so far on standard output. -/
structure State where
  summary : ManifestSummary
  stdout : List String
  deriving DecidableEq, Repr

/-- The stream built for one Representation of an audio AdaptationSet
(lines 55-70). -/
def audioStreamOf (adaptationSet : AdaptationSet) (representation : Representation) :
    AudioStream :=
  let codecs := extractCodec adaptationSet.Codecs
  let codecs := if codecs = "unknown" then extractCodec representation.Codecs else codecs
  let channels := extractChannelDescriptors adaptationSet.AudioChannelConfiguration
  let channels :=
    if channels = "unknown" then
      extractChannelConfiguration representation.AudioChannelConfiguration
    else channels
  { Codec := codecs
    Bitrate := extractBitrate representation.Bandwidth
    Channels := channels
    Language := extractLanguage adaptationSet.Lang }

/-- Body of the inner loop over an audio AdaptationSet (lines 54-72): build the
stream and append it to `summary.Audios`. -/
def audioBody (adaptationSet : AdaptationSet) (summary : ManifestSummary)
    (representation : Representation) : ManifestSummary :=
  { summary with Audios := summary.Audios ++ [audioStreamOf adaptationSet representation] }

/-- The stream built for one Representation of a video AdaptationSet
(lines 76-85). -/
def videoStreamOf (adaptationSet : AdaptationSet) (representation : Representation) :
    VideoStream :=
  let codecs := extractCodec adaptationSet.Codecs
  let codecs := if codecs = "unknown" then extractCodec representation.Codecs else codecs
  { Codec := codecs
    Bitrate := extractBitrate representation.Bandwidth
    Resolution := extractResolution representation.Width representation.Height }

/-- Body of the inner loop over a video AdaptationSet (lines 75-87): build the
stream and append it to `summary.Videos`. -/
def videoBody (adaptationSet : AdaptationSet) (summary : ManifestSummary)
    (representation : Representation) : ManifestSummary :=
  { summary with Videos := summary.Videos ++ [videoStreamOf adaptationSet representation] }

/-- The line printed for an AdaptationSet that is skipped (line 49). -/
def skipMessage (i : Nat) : String :=
  "AdaptationSet " ++ FormatInt (Int.ofNat i) ++
    ": ContentType or MimeType is nil, skipping...\n"

/-- Body of the loop over the AdaptationSets of a Period (lines 48-88), for
the AdaptationSet at index `i`. -/
def adaptationSetBody (st : State) (entry : Nat × AdaptationSet) : State :=
  let i := entry.1
  let adaptationSet := entry.2
  match adaptationSet.ContentType, adaptationSet.MimeType with
  | some contentType, some mimeType =>
    let summary := st.summary
    let summary :=
      if contentType = audioContentType ∧ mimeType = audioMimeType then
        adaptationSet.Representations.foldl (audioBody adaptationSet) summary
      else summary
    let summary :=
      if contentType = videoContentType ∧ mimeType = videoMimeType then
        adaptationSet.Representations.foldl (videoBody adaptationSet) summary
      else summary
    { st with summary := summary }
  | _, _ => { st with stdout := st.stdout ++ [skipMessage i] }

/-- Body of the loop over the Periods (lines 46-90). -/
def periodBody (st : State) (period : Period) : State :=
  period.AdaptationSets.enum.foldl adaptationSetBody st

/-- The traversal of `parsePlaylist` (lines 46-90) from a given state. -/
def traverse (mpd : MPD) (st : State) : State :=
  mpd.Periods.foldl periodBody st

/-- What a call of `parsePlaylist` yields: the returned summary, the returned
error (`none` for Go's `nil`) and the lines it printed. -/
structure Outcome where
  summary : ManifestSummary
  err : Option String
  stdout : List String
  deriving DecidableEq, Repr

/-- The function `parsePlaylist` (lines 39-93). The deserializer
`mpd.ReadFromString` of the go-dash library is a parameter. -/
def parsePlaylist (ReadFromString : String → Except String MPD)
    (manifestBytes : String) : Outcome :=
  let summary : ManifestSummary := { Audios := [], Videos := [] }
  match ReadFromString manifestBytes with
  | Except.error err =>
    { summary := summary
      err := some ("failed to read DASH manifest: " ++ err)
      stdout := [] }
  | Except.ok mpd =>
    let st := traverse mpd { summary := summary, stdout := [] }
    { summary := st.summary, err := none, stdout := st.stdout }

/-! ## Specification-side definitions -/

/-- Classification rule of the specification: an AdaptationSet is Video when
ContentType is present and is "video" and MimeType is present and is
"video/mp4". -/
def isVideo (adaptationSet : AdaptationSet) : Prop :=
  adaptationSet.ContentType = some "video" ∧ adaptationSet.MimeType = some "video/mp4"

/-- Classification rule of the specification: an AdaptationSet is Audio when
ContentType is present and is "audio" and MimeType is present and is
"audio/mp4". -/
def isAudio (adaptationSet : AdaptationSet) : Prop :=
  adaptationSet.ContentType = some "audio" ∧ adaptationSet.MimeType = some "audio/mp4"

instance (adaptationSet : AdaptationSet) : Decidable (isVideo adaptationSet) := by
  unfold isVideo; infer_instance

instance (adaptationSet : AdaptationSet) : Decidable (isAudio adaptationSet) := by
  unfold isAudio; infer_instance

/-- Video streams an AdaptationSet stands for in the specification: one per
Representation, in order, when it is classified Video, none otherwise. -/
def videosOf (adaptationSet : AdaptationSet) : List VideoStream :=
  if isVideo adaptationSet then
    adaptationSet.Representations.map (videoStreamOf adaptationSet)
  else []

/-- Audio streams an AdaptationSet stands for in the specification: one per
Representation, in order, when it is classified Audio, none otherwise. -/
def audiosOf (adaptationSet : AdaptationSet) : List AudioStream :=
  if isAudio adaptationSet then
    adaptationSet.Representations.map (audioStreamOf adaptationSet)
  else []

/-- Specification of the video list: concatenation in document order, Period
then AdaptationSet then Representation. -/
def videosInDocumentOrder (periods : List Period) : List VideoStream :=
  periods.flatMap (fun period => period.AdaptationSets.flatMap videosOf)

/-- Specification of the audio list: concatenation in document order, Period
then AdaptationSet then Representation. -/
def audiosInDocumentOrder (periods : List Period) : List AudioStream :=
  periods.flatMap (fun period => period.AdaptationSets.flatMap audiosOf)

/-- The Values of a descriptor list that are present and non-empty, in their
original order. -/
def presentValues (descriptors : List DescriptorType) : List String :=
  (descriptors.filterMap (fun descriptor => descriptor.Value)).filter (fun v => v ≠ "")

/-- Strings joined by a single comma between consecutive elements. -/
def joinWithComma : List String → String
  | [] => ""
  | [a] => a
  | a :: b :: rest => a ++ "," ++ joinWithComma (b :: rest)

/-- Value of a decimal digit character. -/
def digitValue (c : Char) : Option Nat :=
  if c.isDigit then some (c.toNat - 48) else none

/-- Reads a run of decimal digits, most significant first, onto `acc`. -/
def parseDigits (acc : Nat) : List Char → Option Nat
  | [] => some acc
  | c :: cs =>
    match digitValue c with
    | none => none
    | some d => parseDigits (acc * 10 + d) cs

/-- Parses a decimal integer: an optional leading minus sign followed by one
or more decimal digits. -/
def parseDecimal (s : String) : Option Int :=
  match s.data with
  | [] => none
  | c :: cs =>
    if c = '-' then
      if cs = [] then none else (parseDigits 0 cs).map (fun n => -(Int.ofNat n))
    else (parseDigits 0 (c :: cs)).map Int.ofNat

/-! ## Example documents -/

/-- The state in which the traversal starts: empty summary, nothing printed. -/
def initialState : State :=
  { summary := { Audios := [], Videos := [] }, stdout := [] }

/-- The video AdaptationSet of the end-to-end example: Codecs "avc1" and two
Representations, 500000 at 640x360 and 1000000 at 1280x720. -/
def exampleVideoSet : AdaptationSet :=
  { ContentType := some "video", MimeType := some "video/mp4", Codecs := some "avc1",
    Lang := none, AudioChannelConfiguration := [],
    Representations :=
      [ { Codecs := none, Bandwidth := some 500000, Width := some 640, Height := some 360,
          AudioChannelConfiguration := none },
        { Codecs := none, Bandwidth := some 1000000, Width := some 1280, Height := some 720,
          AudioChannelConfiguration := none } ] }

/-- The end-to-end example: one Period holding `exampleVideoSet`. -/
def exampleTree : MPD :=
  { Periods := [{ AdaptationSets := [exampleVideoSet] }] }

/-- A video AdaptationSet whose own Codecs attribute is the text "unknown",
with one Representation whose Codecs is "avc1.42C00D". -/
def sentinelCodecSet : AdaptationSet :=
  { ContentType := some "video", MimeType := some "video/mp4", Codecs := some "unknown",
    Lang := none, AudioChannelConfiguration := [],
    Representations :=
      [ { Codecs := some "avc1.42C00D", Bandwidth := some 500000, Width := some 640,
          Height := some 360, AudioChannelConfiguration := none } ] }

/-- A video AdaptationSet with an empty Codecs attribute and one Representation
whose Codecs is "avc1.42C00D". -/
def fallbackVideoSet : AdaptationSet :=
  { ContentType := some "video", MimeType := some "video/mp4", Codecs := some "",
    Lang := none, AudioChannelConfiguration := [],
    Representations :=
      [ { Codecs := some "avc1.42C00D", Bandwidth := some 500000, Width := some 640,
          Height := some 360, AudioChannelConfiguration := none } ] }

/-- An audio AdaptationSet without usable channel descriptors: one descriptor
with an empty Value; its Representations carry a channel configuration "2",
no configuration, and a configuration without Value. -/
def exampleAudioSet : AdaptationSet :=
  { ContentType := some "audio", MimeType := some "audio/mp4", Codecs := some "mp4a.40.2",
    Lang := some "en",
    AudioChannelConfiguration := [{ SchemeIDURI := none, Value := some "", ID := none }],
    Representations :=
      [ { Codecs := none, Bandwidth := some 128000, Width := none, Height := none,
          AudioChannelConfiguration := some { SchemeIDURI := none, Value := some "2" } },
        { Codecs := none, Bandwidth := some 64000, Width := none, Height := none,
          AudioChannelConfiguration := none },
        { Codecs := none, Bandwidth := none, Width := none, Height := none,
          AudioChannelConfiguration := some { SchemeIDURI := none, Value := none } } ] }

/-- A deserializer for three fixed texts: "first" is a tree with the Period of
`exampleVideoSet`, "second" one with the Period of `exampleAudioSet`, and any
other text the tree with both Periods in that order. -/
def exampleReader (text : String) : Except String MPD :=
  if text = "first" then Except.ok { Periods := [{ AdaptationSets := [exampleVideoSet] }] }
  else if text = "second" then Except.ok { Periods := [{ AdaptationSets := [exampleAudioSet] }] }
  else
    Except.ok
      { Periods := [{ AdaptationSets := [exampleVideoSet] }, { AdaptationSets := [exampleAudioSet] }] }

/-- A channel descriptor list with the single Value "unknown". -/
def sentinelDescriptors : List DescriptorType :=
  [{ SchemeIDURI := none, Value := some "unknown", ID := none }]

/-! ## Diagnostics: specification-side definitions -/

/-- An AdaptationSet that the specification calls Unclassified: neither Video
nor Audio. -/
def isUnclassified (adaptationSet : AdaptationSet) : Prop :=
  ¬ isVideo adaptationSet ∧ ¬ isAudio adaptationSet

instance (adaptationSet : AdaptationSet) : Decidable (isUnclassified adaptationSet) := by
  unfold isUnclassified; infer_instance

/-- An AdaptationSet one of whose two discriminators, ContentType or MimeType,
is absent. -/
def hasAbsentDiscriminator (adaptationSet : AdaptationSet) : Prop :=
  adaptationSet.ContentType = none ∨ adaptationSet.MimeType = none

instance (adaptationSet : AdaptationSet) : Decidable (hasAbsentDiscriminator adaptationSet) := by
  unfold hasAbsentDiscriminator; infer_instance

/-- Number of Unclassified AdaptationSets of a document. -/
def countUnclassified (periods : List Period) : Nat :=
  (periods.map (fun period =>
    period.AdaptationSets.countP (fun adaptationSet => decide (isUnclassified adaptationSet)))).sum

/-- Number of AdaptationSets of a document with an absent ContentType or
MimeType. -/
def countAbsentDiscriminator (periods : List Period) : Nat :=
  (periods.map (fun period =>
    period.AdaptationSets.countP
      (fun adaptationSet => decide (hasAbsentDiscriminator adaptationSet)))).sum

/-- Diagnostic lines an indexed AdaptationSet stands for: the skip line with
its index when a discriminator is absent, nothing otherwise. -/
def diagnosticsOf (entry : Nat × AdaptationSet) : List String :=
  if hasAbsentDiscriminator entry.2 then [skipMessage entry.1] else []

/-- Diagnostic lines of a document in document order; the index restarts at
zero in every Period. -/
def diagnosticsInDocumentOrder (periods : List Period) : List String :=
  periods.flatMap (fun period => period.AdaptationSets.enum.flatMap diagnosticsOf)

/-! ## Fetching (`fetcher.go`) -/

def mpegDashMPDMimeType : String := "application/dash+xml"
def appXmlMimeType : String := "application/xml"
def textXmlMimeType : String := "text/xml"
def maxPlaylistSizeBytes : Int := 10 * 1024 * 1024
def userAgent : String := "ManifestAnalyzer/1.0 (GO HTTP Client)"

/-- Modelled from the spec: the fields of Go's `url.URL` (standard library);
the program reads only `Scheme`. -/
structure URL where
  Scheme : String
  Host : String
  Path : String
  RawQuery : String
  Fragment : String
  deriving DecidableEq, Repr

/-- Modelled from the spec: an outgoing `http.Request` (standard library): the
method, the target and the headers set on it, latest first. -/
structure Request where
  Method : String
  Target : String
  Header : List (String × String)
  deriving DecidableEq, Repr

/-- Modelled from the spec: what the program reads of an `http.Response`
(standard library): the status code, the value of the Content-Type header,
`ContentLength` (the declared length, `-1` when the length is unknown, as for
a chunked or transparently decompressed body) and the outcome of
`io.ReadAll(resp.Body)`, the bytes of the body or a read error. -/
structure Response where
  StatusCode : Int
  ContentType : String
  ContentLength : Int
  Body : Except String (List (Fin 256))

/-- What `fetchPlaylist` returns: the text, as bytes, and the error (`none`
for Go's `nil`). -/
structure FetchResult where
  text : List (Fin 256)
  err : Option String
  deriving DecidableEq, Repr

/-- The function `fetchPlaylist` (lines 21-59). The standard-library calls
`http.NewRequestWithContext` and `client.Do` are parameters; `target` is
`url.String()`. -/
def fetchPlaylist (NewRequestWithContext : String → String → Except String Request)
    (Do : Request → Except String Response) (target : String) : FetchResult :=
  match NewRequestWithContext "GET" target with
  | Except.error err => { text := [], err := some ("failed to create request: " ++ err) }
  | Except.ok req =>
    let req := { req with Header := ("User-Agent", userAgent) :: req.Header }
    let req :=
      { req with
        Header :=
          ("Accept", mpegDashMPDMimeType ++ ", " ++ appXmlMimeType ++ ", " ++ textXmlMimeType) ::
            req.Header }
    match Do req with
    | Except.error err => { text := [], err := some ("failed to do request: " ++ err) }
    | Except.ok resp =>
      if resp.StatusCode ≠ 200 then
        { text := [], err := some ("got non-200 status code: " ++ FormatInt resp.StatusCode) }
      else if resp.ContentType ≠ mpegDashMPDMimeType ∧ resp.ContentType ≠ appXmlMimeType ∧
          resp.ContentType ≠ textXmlMimeType then
        { text := [], err := some ("got unexpected content type: " ++ resp.ContentType) }
      else if resp.ContentLength = 0 then
        { text := [], err := some "got empty response body" }
      else if resp.ContentLength > maxPlaylistSizeBytes then
        { text := [],
          err := some ("playlist is too large: " ++ FormatInt resp.ContentLength ++ " bytes") }
      else
        match resp.Body with
        | Except.error err => { text := [], err := some ("failed to read all bytes: " ++ err) }
        | Except.ok bytes => { text := bytes, err := none }

/-- What `parseUrl` returns: the URL (`none` for Go's `nil`) and the error
(`none` for `nil`). -/
structure ParsedUrl where
  url : Option URL
  err : Option String
  deriving DecidableEq, Repr

/-- The function `parseUrl` (lines 62-73). The standard-library parser
`url.ParseRequestURI` is a parameter. -/
def parseUrl (ParseRequestURI : String → Except String URL) (rawUrl : String) : ParsedUrl :=
  match ParseRequestURI rawUrl with
  | Except.error err => { url := none, err := some ("failed to parse url: " ++ err) }
  | Except.ok validUrl =>
    if validUrl.Scheme ≠ "http" ∧ validUrl.Scheme ≠ "https" ∧ validUrl.Scheme ≠ "file" then
      { url := none, err := some ("invalid url scheme: " ++ validUrl.Scheme) }
    else { url := some validUrl, err := none }

/-- A request constructor that always succeeds with an empty header set. -/
def exampleNewRequest (method target : String) : Except String Request :=
  Except.ok { Method := method, Target := target, Header := [] }

/-- A body one byte longer than the cap. -/
def oversizedBody : List (Fin 256) :=
  List.replicate (10 * 1024 * 1024 + 1) 0

/-- A 200 response of type application/dash+xml whose length is not declared
(`ContentLength = -1`) and whose body is `oversizedBody`. -/
def chunkedResponse : Response :=
  { StatusCode := 200, ContentType := "application/dash+xml", ContentLength := -1,
    Body := Except.ok oversizedBody }

/-- A URL parser for fixed texts, with the results `url.ParseRequestURI` gives
on the inputs of `TestParseURL`: the https, http and ftp URLs parse with their
scheme, the empty text and "not-a-url" are rejected. -/
def exampleParseRequestURI (rawUrl : String) : Except String URL :=
  if rawUrl = "https://example.com/manifest.mpd" then
    Except.ok { Scheme := "https", Host := "example.com", Path := "/manifest.mpd",
                RawQuery := "", Fragment := "" }
  else if rawUrl = "http://example.com/manifest.mpd" then
    Except.ok { Scheme := "http", Host := "example.com", Path := "/manifest.mpd",
                RawQuery := "", Fragment := "" }
  else if rawUrl = "ftp://example.com/manifest.mpd" then
    Except.ok { Scheme := "ftp", Host := "example.com", Path := "/manifest.mpd",
                RawQuery := "", Fragment := "" }
  else if rawUrl = "" then Except.error "parse \"\": empty url"
  else Except.error ("parse \"" ++ rawUrl ++ "\": invalid URI for request")

/-! ## The traversal with pointer reads made explicit

The same functions of `parser.go`, written once more with every read through a
pointer (`*p`, or a field of a pointed-to struct) as an operation that faults
on a nil pointer, and with the short-circuit evaluation of `||` and `&&`. The
elements of the Period, AdaptationSet and Representation slices are pointers
that the deserializer allocates for every element it decodes; they are values
here, as in the document tree above. -/

/-- A run-time fault of the program. -/
inductive Fault where
  | nilDereference
  deriving DecidableEq, Repr

/-- Reading through a pointer: a fault when the pointer is nil. -/
def deref {α : Type} (p : Option α) : Except Fault α :=
  match p with
  | none => Except.error Fault.nilDereference
  | some a => Except.ok a

/-- The test `p == nil`, which reads nothing through `p`. -/
def isNil {α : Type} (p : Option α) : Except Fault Bool :=
  Except.ok p.isNone

/-- The test `*p == v`. -/
def derefEq {α : Type} [DecidableEq α] (p : Option α) (v : α) : Except Fault Bool := do
  let a ← deref p
  pure (decide (a = v))

/-- Go's `a || b`: `b` is evaluated only when `a` is false. -/
def orElse (a b : Except Fault Bool) : Except Fault Bool := do
  if (← a) then pure true else b

/-- Go's `a && b`: `b` is evaluated only when `a` is true. -/
def andAlso (a b : Except Fault Bool) : Except Fault Bool := do
  if (← a) then b else pure false

/-- `extractCodec` (lines 95-101) with explicit pointer reads. -/
def extractCodecChecked (codecs : Option String) : Except Fault String := do
  if (← orElse (isNil codecs) (derefEq codecs "")) then pure unknown
  else deref codecs

/-- `extractResolution` (lines 103-109) with explicit pointer reads. -/
def extractResolutionChecked (width height : Option Int) : Except Fault String := do
  if (← orElse (orElse (orElse (isNil width) (isNil height)) (derefEq width 0))
      (derefEq height 0)) then
    pure unknown
  else
    let w ← deref width
    let h ← deref height
    pure (FormatInt w ++ "x" ++ FormatInt h)

/-- `extractBitrate` (lines 111-117) with explicit pointer reads. -/
def extractBitrateChecked (bandwidth : Option Int) : Except Fault String := do
  if (← orElse (isNil bandwidth) (derefEq bandwidth 0)) then pure unknown
  else
    let b ← deref bandwidth
    pure (FormatInt b)

/-- One iteration of the loop of `extractChannelDescriptors` (lines 121-127)
with explicit pointer reads. -/
def collectChannelChecked (channels : List String) (descriptor : DescriptorType) :
    Except Fault (List String) := do
  if (← orElse (isNil descriptor.Value) (derefEq descriptor.Value "")) then pure channels
  else
    let v ← deref descriptor.Value
    pure (channels ++ [v])

/-- `extractChannelDescriptors` (lines 119-134) with explicit pointer reads. -/
def extractChannelDescriptorsChecked (descriptors : List DescriptorType) :
    Except Fault String := do
  let channels ← descriptors.foldlM collectChannelChecked []
  if channels.length = 0 then pure unknown else pure (Join channels ",")

/-- `extractChannelConfiguration` (lines 136-142) with explicit pointer
reads: `channelConfiguration.Value` reads through `channelConfiguration`. -/
def extractChannelConfigurationChecked
    (channelConfiguration : Option AudioChannelConfiguration) : Except Fault String := do
  if (← orElse
        (orElse (isNil channelConfiguration)
          (do let cc ← deref channelConfiguration; isNil cc.Value))
        (do let cc ← deref channelConfiguration; derefEq cc.Value "")) then
    pure unknown
  else
    let cc ← deref channelConfiguration
    deref cc.Value

/-- `extractLanguage` (lines 144-150) with explicit pointer reads. -/
def extractLanguageChecked (lang : Option String) : Except Fault String := do
  if (← orElse (isNil lang) (derefEq lang "")) then pure unknown
  else deref lang

/-- The audio loop body (lines 55-71) with explicit pointer reads. -/
def audioBodyChecked (adaptationSet : AdaptationSet) (summary : ManifestSummary)
    (representation : Representation) : Except Fault ManifestSummary := do
  let codecs ← extractCodecChecked adaptationSet.Codecs
  let codecs ←
    if codecs = "unknown" then extractCodecChecked representation.Codecs else pure codecs
  let channels ← extractChannelDescriptorsChecked adaptationSet.AudioChannelConfiguration
  let channels ←
    if channels = "unknown" then
      extractChannelConfigurationChecked representation.AudioChannelConfiguration
    else pure channels
  let bitrate ← extractBitrateChecked representation.Bandwidth
  let language ← extractLanguageChecked adaptationSet.Lang
  let audioStream : AudioStream :=
    { Codec := codecs, Bitrate := bitrate, Channels := channels, Language := language }
  pure { summary with Audios := summary.Audios ++ [audioStream] }

/-- The video loop body (lines 76-86) with explicit pointer reads. -/
def videoBodyChecked (adaptationSet : AdaptationSet) (summary : ManifestSummary)
    (representation : Representation) : Except Fault ManifestSummary := do
  let codecs ← extractCodecChecked adaptationSet.Codecs
  let codecs ←
    if codecs = "unknown" then extractCodecChecked representation.Codecs else pure codecs
  let bitrate ← extractBitrateChecked representation.Bandwidth
  let resolution ← extractResolutionChecked representation.Width representation.Height
  let videoStream : VideoStream :=
    { Codec := codecs, Bitrate := bitrate, Resolution := resolution }
  pure { summary with Videos := summary.Videos ++ [videoStream] }

/-- The loop body over AdaptationSets (lines 48-88) with explicit pointer
reads: `*adaptationSet.ContentType` and `*adaptationSet.MimeType` are read in
both classification tests. -/
def adaptationSetBodyChecked (st : State) (entry : Nat × AdaptationSet) :
    Except Fault State := do
  let i := entry.1
  let adaptationSet := entry.2
  if (← orElse (isNil adaptationSet.ContentType) (isNil adaptationSet.MimeType)) then
    pure { st with stdout := st.stdout ++ [skipMessage i] }
  else
    let summary := st.summary
    let summary ←
      if (← andAlso (derefEq adaptationSet.ContentType audioContentType)
            (derefEq adaptationSet.MimeType audioMimeType)) then
        adaptationSet.Representations.foldlM (audioBodyChecked adaptationSet) summary
      else pure summary
    let summary ←
      if (← andAlso (derefEq adaptationSet.ContentType videoContentType)
            (derefEq adaptationSet.MimeType videoMimeType)) then
        adaptationSet.Representations.foldlM (videoBodyChecked adaptationSet) summary
      else pure summary
    pure { st with summary := summary }

/-- The loop body over Periods (lines 46-90) with explicit pointer reads. -/
def periodBodyChecked (st : State) (period : Period) : Except Fault State :=
  period.AdaptationSets.enum.foldlM adaptationSetBodyChecked st

/-- The traversal (lines 46-90) with explicit pointer reads. -/
def traverseChecked (mpd : MPD) (st : State) : Except Fault State :=
  mpd.Periods.foldlM periodBodyChecked st

/-- `parsePlaylist` (lines 39-93) with explicit pointer reads: a fault, or what
the call yields. -/
def parsePlaylistChecked (ReadFromString : String → Except String MPD)
    (manifestBytes : String) : Except Fault Outcome :=
  let summary : ManifestSummary := { Audios := [], Videos := [] }
  match ReadFromString manifestBytes with
  | Except.error err =>
    Except.ok
      { summary := summary
        err := some ("failed to read DASH manifest: " ++ err)
        stdout := [] }
  | Except.ok mpd => do
    let st ← traverseChecked mpd { summary := summary, stdout := [] }
    pure { summary := st.summary, err := none, stdout := st.stdout }

/-! ## Further example documents -/

/-- A subtitle AdaptationSet: ContentType "text" and MimeType
"application/ttml+xml", both present, with one Representation. -/
def textSet : AdaptationSet :=
  { ContentType := some "text", MimeType := some "application/ttml+xml", Codecs := none,
    Lang := some "en", AudioChannelConfiguration := [],
    Representations :=
      [ { Codecs := none, Bandwidth := some 1000, Width := none, Height := none,
          AudioChannelConfiguration := none } ] }

/-- An AdaptationSet with ContentType "video" and no MimeType, holding one
Representation. -/
def absentMimeSet : AdaptationSet :=
  { ContentType := some "video", MimeType := none, Codecs := some "avc1",
    Lang := none, AudioChannelConfiguration := [],
    Representations :=
      [ { Codecs := none, Bandwidth := some 500000, Width := some 640, Height := some 360,
          AudioChannelConfiguration := none } ] }

/-- An audio AdaptationSet whose single channel descriptor has the Value
"unknown", with one Representation whose channel configuration is "2". -/
def sentinelChannelSet : AdaptationSet :=
  { ContentType := some "audio", MimeType := some "audio/mp4", Codecs := some "mp4a.40.2",
    Lang := some "en", AudioChannelConfiguration := sentinelDescriptors,
    Representations :=
      [ { Codecs := none, Bandwidth := some 128000, Width := none, Height := none,
          AudioChannelConfiguration := some { SchemeIDURI := none, Value := some "2" } } ] }

/-- An audio AdaptationSet with channel descriptors "A", "" and "B", and one
Representation whose channel configuration is "2". -/
def describedChannelSet : AdaptationSet :=
  { ContentType := some "audio", MimeType := some "audio/mp4", Codecs := some "ec-3",
    Lang := none,
    AudioChannelConfiguration :=
      [ { SchemeIDURI := none, Value := some "A", ID := none },
        { SchemeIDURI := none, Value := some "", ID := none },
        { SchemeIDURI := none, Value := some "B", ID := none } ],
    Representations :=
      [ { Codecs := none, Bandwidth := some 128000, Width := none, Height := none,
          AudioChannelConfiguration := some { SchemeIDURI := none, Value := some "2" } } ] }

/-- A document in which nothing can be determined: a video and an audio
AdaptationSet without Codecs, Lang or channel descriptors, each with one
Representation that has no attribute at all. -/
def sparseTree : MPD :=
  { Periods :=
      [ { AdaptationSets :=
            [ { ContentType := some "video", MimeType := some "video/mp4", Codecs := none,
                Lang := none, AudioChannelConfiguration := [],
                Representations :=
                  [ { Codecs := none, Bandwidth := none, Width := none, Height := none,
                      AudioChannelConfiguration := none } ] },
              { ContentType := some "audio", MimeType := some "audio/mp4", Codecs := some "",
                Lang := some "", AudioChannelConfiguration := [],
                Representations :=
                  [ { Codecs := some "", Bandwidth := some 0, Width := none, Height := none,
                      AudioChannelConfiguration :=
                        some { SchemeIDURI := none, Value := some "" } } ] } ] } ] }

/-! ## The traversal as concatenation -/

theorem foldl_audioBody (adaptationSet : AdaptationSet) (reps : List Representation)
    (summary : ManifestSummary) :
    reps.foldl (audioBody adaptationSet) summary =
      { Audios := summary.Audios ++ reps.map (audioStreamOf adaptationSet)
        Videos := summary.Videos } := by
  induction reps generalizing summary with
  | nil => simp
  | cons r rs ih => simp [List.foldl_cons, ih, audioBody]

theorem foldl_videoBody (adaptationSet : AdaptationSet) (reps : List Representation)
    (summary : ManifestSummary) :
    reps.foldl (videoBody adaptationSet) summary =
      { Audios := summary.Audios
        Videos := summary.Videos ++ reps.map (videoStreamOf adaptationSet) } := by
  induction reps generalizing summary with
  | nil => simp
  | cons r rs ih => simp [List.foldl_cons, ih, videoBody]

theorem not_isAudio_and_isVideo (adaptationSet : AdaptationSet) :
    ¬ (isAudio adaptationSet ∧ isVideo adaptationSet) := by
  rintro ⟨⟨ha, _⟩, ⟨hv, _⟩⟩
  rw [ha] at hv
  exact absurd hv (by decide)

theorem adaptationSetBody_summary (st : State) (i : Nat) (adaptationSet : AdaptationSet) :
    (adaptationSetBody st (i, adaptationSet)).summary =
      { Audios := st.summary.Audios ++ audiosOf adaptationSet
        Videos := st.summary.Videos ++ videosOf adaptationSet } := by
  obtain ⟨ct, mt, codecs, lang, descs, reps⟩ := adaptationSet
  cases ct with
  | none => simp [adaptationSetBody, audiosOf, videosOf, isAudio, isVideo]
  | some ct =>
    cases mt with
    | none => simp [adaptationSetBody, audiosOf, videosOf, isAudio, isVideo]
    | some mt =>
      by_cases ha : ct = "audio" ∧ mt = "audio/mp4"
      · obtain ⟨rfl, rfl⟩ := ha
        simp [adaptationSetBody, audiosOf, videosOf, isAudio, isVideo, audioContentType,
          audioMimeType, videoContentType, videoMimeType, foldl_audioBody]
      · by_cases hv : ct = "video" ∧ mt = "video/mp4"
        · obtain ⟨rfl, rfl⟩ := hv
          simp [adaptationSetBody, audiosOf, videosOf, isAudio, isVideo, audioContentType,
            audioMimeType, videoContentType, videoMimeType, foldl_videoBody]
        · simp only [adaptationSetBody, audiosOf, videosOf, isAudio, isVideo,
            audioContentType, audioMimeType, videoContentType, videoMimeType,
            Option.some.injEq, if_neg ha, if_neg hv, List.append_nil]

theorem foldl_adaptationSetBody_summary (sets : List AdaptationSet) (n : Nat) (st : State) :
    ((sets.enumFrom n).foldl adaptationSetBody st).summary =
      { Audios := st.summary.Audios ++ sets.flatMap audiosOf
        Videos := st.summary.Videos ++ sets.flatMap videosOf } := by
  induction sets generalizing n st with
  | nil => simp
  | cons a rest ih =>
    simp only [List.enumFrom_cons, List.foldl_cons, ih, adaptationSetBody_summary,
      List.flatMap_cons, List.append_assoc]

theorem periodBody_summary (st : State) (period : Period) :
    (periodBody st period).summary =
      { Audios := st.summary.Audios ++ period.AdaptationSets.flatMap audiosOf
        Videos := st.summary.Videos ++ period.AdaptationSets.flatMap videosOf } := by
  simp only [periodBody, List.enum, foldl_adaptationSetBody_summary]

theorem foldl_periodBody_summary (periods : List Period) (st : State) :
    (periods.foldl periodBody st).summary =
      { Audios := st.summary.Audios ++ audiosInDocumentOrder periods
        Videos := st.summary.Videos ++ videosInDocumentOrder periods } := by
  induction periods generalizing st with
  | nil => simp [audiosInDocumentOrder, videosInDocumentOrder]
  | cons p rest ih =>
    simp only [List.foldl_cons, ih, periodBody_summary, audiosInDocumentOrder,
      videosInDocumentOrder, List.flatMap_cons, List.append_assoc]

theorem parsePlaylist_ok (ReadFromString : String → Except String MPD)
    (manifestBytes : String) (mpd : MPD) (hread : ReadFromString manifestBytes = Except.ok mpd) :
    (parsePlaylist ReadFromString manifestBytes).summary =
        { Audios := audiosInDocumentOrder mpd.Periods
          Videos := videosInDocumentOrder mpd.Periods } ∧
      (parsePlaylist ReadFromString manifestBytes).err = none := by
  simp [parsePlaylist, hread, traverse, foldl_periodBody_summary]

theorem parsePlaylist_error (ReadFromString : String → Except String MPD)
    (manifestBytes : String) (e : String) (hread : ReadFromString manifestBytes = Except.error e) :
    (parsePlaylist ReadFromString manifestBytes).summary = { Audios := [], Videos := [] } := by
  simp [parsePlaylist, hread]

/-! ## Decimal rendering -/

theorem digitChar_digit (d : Nat) (h : d < 10) :
    (Nat.digitChar d).isDigit = true ∧ digitValue (Nat.digitChar d) = some d := by
  interval_cases d <;> decide

theorem parseDigits_snoc (l : List Char) (c : Char) (acc : Nat) :
    parseDigits acc (l ++ [c]) =
      (parseDigits acc l).bind (fun a => (digitValue c).map (fun d => a * 10 + d)) := by
  induction l generalizing acc with
  | nil =>
    simp only [List.nil_append, parseDigits, Option.some_bind]
    cases digitValue c <;> rfl
  | cons x xs ih =>
    simp only [List.cons_append, parseDigits]
    cases digitValue x with
    | none => rfl
    | some d => exact ih _

theorem toDigitsCore_spec (fuel : Nat) :
    ∀ (n : Nat) (ds : List Char), n < fuel →
      ∃ l : List Char, Nat.toDigitsCore 10 fuel n ds = l ++ ds ∧ l ≠ [] ∧
        (∀ c ∈ l, c.isDigit = true) ∧ parseDigits 0 l = some n := by
  induction fuel with
  | zero => intro n ds h; omega
  | succ fuel ih =>
    intro n ds h
    have hd := digitChar_digit (n % 10) (Nat.mod_lt _ (by decide))
    by_cases h0 : n / 10 = 0
    · refine ⟨[Nat.digitChar (n % 10)], ?_, by simp, ?_, ?_⟩
      · simp [Nat.toDigitsCore, h0]
      · intro c hc
        simp only [List.mem_singleton] at hc
        rw [hc]; exact hd.1
      · have hn : n % 10 = n := by omega
        simp only [parseDigits, hd.2, Nat.zero_mul, Nat.zero_add]
        rw [hn]
    · obtain ⟨l, hl, hne, hdig, hparse⟩ :=
        ih (n / 10) (Nat.digitChar (n % 10) :: ds) (by omega)
      refine ⟨l ++ [Nat.digitChar (n % 10)], ?_, by simp, ?_, ?_⟩
      · simp [Nat.toDigitsCore, h0, hl]
      · intro c hc
        rcases List.mem_append.1 hc with hc | hc
        · exact hdig c hc
        · simp only [List.mem_singleton] at hc
          rw [hc]; exact hd.1
      · rw [parseDigits_snoc, hparse, Option.some_bind, hd.2, Option.map_some']
        congr 1
        omega

theorem repr_data_spec (n : Nat) :
    (Nat.repr n).data ≠ [] ∧ (∀ c ∈ (Nat.repr n).data, c.isDigit = true) ∧
      parseDigits 0 (Nat.repr n).data = some n := by
  obtain ⟨l, hl, hne, hdig, hparse⟩ := toDigitsCore_spec (n + 1) n [] (Nat.lt_succ_self n)
  have hdata : (Nat.repr n).data = l := by
    simp [Nat.repr, Nat.toDigits, hl, List.asString]
  rw [hdata]
  exact ⟨hne, hdig, hparse⟩

theorem FormatInt_ne_empty (i : Int) : FormatInt i ≠ "" := by
  intro h
  have hd := congrArg String.data h
  cases i with
  | ofNat n => exact (repr_data_spec n).1 hd
  | negSucc n => simp [FormatInt, String.data_append] at hd

theorem FormatInt_ne_unknown (i : Int) : FormatInt i ≠ unknown := by
  intro h
  have hd := congrArg String.data h
  cases i with
  | ofNat n =>
    have hu : 'u' ∈ (Nat.repr n).data := by
      simp only [FormatInt] at hd
      rw [hd]; decide
    exact absurd ((repr_data_spec n).2.1 _ hu) (by decide)
  | negSucc n =>
    simp only [FormatInt, String.data_append] at hd
    have hu : unknown.data = 'u' :: "nknown".data := by decide
    rw [hu, List.singleton_append] at hd
    exact absurd (List.cons.inj hd).1 (by decide)

theorem parseDecimal_FormatInt (i : Int) : parseDecimal (FormatInt i) = some i := by
  cases i with
  | ofNat n =>
    obtain ⟨hne, hdig, hparse⟩ := repr_data_spec n
    simp only [FormatInt, parseDecimal]
    cases hdata : (Nat.repr n).data with
    | nil => exact absurd hdata hne
    | cons c cs =>
      have hc : c ≠ '-' := by
        intro hc
        have := hdig c (by rw [hdata]; simp)
        rw [hc] at this
        exact absurd this (by decide)
      rw [hdata] at hparse
      simp [hc, hparse]
  | negSucc n =>
    obtain ⟨hne, hdig, hparse⟩ := repr_data_spec (n + 1)
    have hdata : (FormatInt (Int.negSucc n)).data = '-' :: (Nat.repr (n + 1)).data := by
      simp [FormatInt, String.data_append]
    simp only [parseDecimal, hdata, if_true, if_neg hne, hparse, Option.map_some']
    rfl

/-! ## Joining with commas -/

theorem intercalate_go_comma (l : List String) (acc : String) :
    String.intercalate.go acc "," l =
      match l with
      | [] => acc
      | a :: rest => acc ++ "," ++ joinWithComma (a :: rest) := by
  induction l generalizing acc with
  | nil => rfl
  | cons a rest ih =>
    rw [String.intercalate.go, ih]
    cases rest with
    | nil => rfl
    | cons b rest => simp only [joinWithComma, String.append_assoc]

theorem Join_comma (l : List String) : Join l "," = joinWithComma l := by
  cases l with
  | nil => rfl
  | cons a rest =>
    rw [Join, String.intercalate, intercalate_go_comma]
    cases rest with
    | nil => rfl
    | cons b rest => simp only [joinWithComma, String.append_assoc]

theorem joinWithComma_ne_empty (a : String) (rest : List String) (ha : a ≠ "") :
    joinWithComma (a :: rest) ≠ "" := by
  intro h
  have hd := congrArg String.data h
  cases rest with
  | nil => exact ha h
  | cons b rest =>
    simp [joinWithComma, String.data_append] at hd

theorem comma_mem_joinWithComma (a b : String) (rest : List String) :
    ',' ∈ (joinWithComma (a :: b :: rest)).data := by
  simp only [joinWithComma, String.data_append, List.mem_append]
  exact Or.inl (Or.inr (by decide))

theorem joinWithComma_eq_unknown (l : List String) (hne : l ≠ []) :
    joinWithComma l = unknown ↔ l = [unknown] := by
  constructor
  · intro h
    match l, hne, h with
    | [a], _, h => simpa [joinWithComma] using h
    | a :: b :: rest, _, h =>
      have hc := comma_mem_joinWithComma a b rest
      rw [h] at hc
      exact absurd hc (by decide)
  · rintro rfl
    rfl

/-! ## Extractors -/

theorem unknown_ne_empty : unknown ≠ "" := by decide

theorem collectChannels_foldl (descriptors : List DescriptorType) (acc : List String) :
    descriptors.foldl
        (fun channels descriptor =>
          match descriptor.Value with
          | none => channels
          | some v => if v = "" then channels else channels ++ [v])
        acc = acc ++ presentValues descriptors := by
  induction descriptors generalizing acc with
  | nil => simp [presentValues]
  | cons d rest ih =>
    rw [List.foldl_cons, ih]
    cases hv : d.Value with
    | none => simp [presentValues, hv]
    | some v =>
      by_cases he : v = ""
      · simp [presentValues, hv, he]
      · simp [presentValues, hv, he]

theorem collectChannels_eq (descriptors : List DescriptorType) :
    collectChannels descriptors = presentValues descriptors := by
  simp [collectChannels, collectChannels_foldl]

theorem mem_presentValues (descriptors : List DescriptorType) (v : String) :
    v ∈ presentValues descriptors ↔
      (∃ d ∈ descriptors, d.Value = some v) ∧ v ≠ "" := by
  simp [presentValues, List.mem_filter, List.mem_filterMap]

theorem extractChannelDescriptors_eq (descriptors : List DescriptorType) :
    extractChannelDescriptors descriptors =
      if presentValues descriptors = [] then unknown
      else joinWithComma (presentValues descriptors) := by
  simp only [extractChannelDescriptors, collectChannels_eq, Join_comma, List.length_eq_zero]

theorem extractCodec_ne_empty (codecs : Option String) : extractCodec codecs ≠ "" := by
  cases codecs with
  | none => exact unknown_ne_empty
  | some c =>
    by_cases h : c = ""
    · simp [extractCodec, h, unknown_ne_empty]
    · simp [extractCodec, h]

theorem extractLanguage_ne_empty (lang : Option String) : extractLanguage lang ≠ "" := by
  cases lang with
  | none => exact unknown_ne_empty
  | some c =>
    by_cases h : c = ""
    · simp [extractLanguage, h, unknown_ne_empty]
    · simp [extractLanguage, h]

theorem extractBitrate_ne_empty (bandwidth : Option Int) : extractBitrate bandwidth ≠ "" := by
  cases bandwidth with
  | none => exact unknown_ne_empty
  | some b =>
    by_cases h : b = 0
    · simp [extractBitrate, h, unknown_ne_empty]
    · simp [extractBitrate, h, FormatInt_ne_empty]

theorem extractResolution_ne_empty (width height : Option Int) :
    extractResolution width height ≠ "" := by
  cases width with
  | none => exact unknown_ne_empty
  | some w =>
    cases height with
    | none => exact unknown_ne_empty
    | some h =>
      by_cases h0 : w = 0 ∨ h = 0
      · simp only [extractResolution, if_pos h0]
        exact unknown_ne_empty
      · simp only [extractResolution, if_neg h0]
        intro he
        have hd := congrArg String.data he
        simp [String.data_append] at hd

theorem extractChannelConfiguration_ne_empty (cc : Option AudioChannelConfiguration) :
    extractChannelConfiguration cc ≠ "" := by
  cases cc with
  | none => exact unknown_ne_empty
  | some cc =>
    cases hv : cc.Value with
    | none => simp [extractChannelConfiguration, hv, unknown_ne_empty]
    | some v =>
      by_cases h : v = ""
      · simp [extractChannelConfiguration, hv, h, unknown_ne_empty]
      · simp [extractChannelConfiguration, hv, h]

theorem extractChannelDescriptors_ne_empty (descriptors : List DescriptorType) :
    extractChannelDescriptors descriptors ≠ "" := by
  rw [extractChannelDescriptors_eq]
  cases hp : presentValues descriptors with
  | nil => simpa using unknown_ne_empty
  | cons a rest =>
    have ha : a ∈ presentValues descriptors := by rw [hp]; simp
    have hne := ((mem_presentValues descriptors a).1 ha).2
    simpa using joinWithComma_ne_empty a rest hne

/-! ## Streams built per Representation -/

theorem videoStreamOf_Codec (adaptationSet : AdaptationSet) (rep : Representation) :
    (videoStreamOf adaptationSet rep).Codec =
      if extractCodec adaptationSet.Codecs = unknown then extractCodec rep.Codecs
      else extractCodec adaptationSet.Codecs := rfl

theorem audioStreamOf_Codec (adaptationSet : AdaptationSet) (rep : Representation) :
    (audioStreamOf adaptationSet rep).Codec =
      if extractCodec adaptationSet.Codecs = unknown then extractCodec rep.Codecs
      else extractCodec adaptationSet.Codecs := rfl

theorem audioStreamOf_Channels (adaptationSet : AdaptationSet) (rep : Representation) :
    (audioStreamOf adaptationSet rep).Channels =
      if extractChannelDescriptors adaptationSet.AudioChannelConfiguration = unknown then
        extractChannelConfiguration rep.AudioChannelConfiguration
      else extractChannelDescriptors adaptationSet.AudioChannelConfiguration := rfl

theorem adaptationSetBody_isVideo (st : State) (i : Nat) (adaptationSet : AdaptationSet)
    (hv : isVideo adaptationSet) :
    (adaptationSetBody st (i, adaptationSet)).summary.Videos =
      st.summary.Videos ++ adaptationSet.Representations.map (videoStreamOf adaptationSet) := by
  rw [adaptationSetBody_summary]
  simp [videosOf, hv]

theorem adaptationSetBody_isAudio (st : State) (i : Nat) (adaptationSet : AdaptationSet)
    (ha : isAudio adaptationSet) :
    (adaptationSetBody st (i, adaptationSet)).summary.Audios =
      st.summary.Audios ++ adaptationSet.Representations.map (audioStreamOf adaptationSet) := by
  rw [adaptationSetBody_summary]
  simp [audiosOf, ha]

theorem extractCodec_present (c : String) (hne : c ≠ "") : extractCodec (some c) = c := by
  simp [extractCodec, hne]

theorem extractCodec_absent (codecs : Option String)
    (h : codecs = none ∨ codecs = some "") : extractCodec codecs = unknown := by
  rcases h with rfl | rfl <;> simp [extractCodec]

theorem codec_of_present (setCodecs repCodecs : Option String) (c : String)
    (hc : setCodecs = some c) (hne : c ≠ "") (hunk : c ≠ "unknown") :
    (if extractCodec setCodecs = unknown then extractCodec repCodecs
      else extractCodec setCodecs) = c := by
  subst hc
  rw [extractCodec_present c hne, if_neg (by simpa [unknown] using hunk)]

theorem codec_of_absent (setCodecs repCodecs : Option String)
    (h : setCodecs = none ∨ setCodecs = some "") :
    (if extractCodec setCodecs = unknown then extractCodec repCodecs
      else extractCodec setCodecs) = extractCodec repCodecs := by
  rw [extractCodec_absent setCodecs h, if_pos rfl]

/-! ## Codec resolution -/

/-- C1, counterexample: the video AdaptationSet `sentinelCodecSet` has a
present, non-empty Codecs attribute, the text "unknown", yet the stream that
`parsePlaylist` produces for its Representation carries the Representation's
codec "avc1.42C00D" and not the AdaptationSet-level string. -/
theorem codec_precedence_counterexample :
    sentinelCodecSet.Codecs = some "unknown" ∧ "unknown" ≠ "" ∧ isVideo sentinelCodecSet ∧
      (parsePlaylist (fun _ => Except.ok { Periods := [{ AdaptationSets := [sentinelCodecSet] }] })
          "").summary.Videos.map VideoStream.Codec = ["avc1.42C00D"] ∧
      "avc1.42C00D" ≠ "unknown" := by
  decide

/-- C1, amended: for an audio- or video-classified AdaptationSet whose Codecs
is present, non-empty and not the text "unknown", the loop body appends one
stream per Representation, and the codec of the stream built for every
Representation, whatever its own Codecs, is the AdaptationSet-level string
verbatim. -/
theorem codec_precedence (st : State) (i : Nat) (adaptationSet : AdaptationSet) (c : String)
    (hc : adaptationSet.Codecs = some c) (hne : c ≠ "") (hunk : c ≠ "unknown") :
    (isVideo adaptationSet →
        (adaptationSetBody st (i, adaptationSet)).summary.Videos =
            st.summary.Videos ++
              adaptationSet.Representations.map (videoStreamOf adaptationSet) ∧
          ∀ rep : Representation, (videoStreamOf adaptationSet rep).Codec = c) ∧
      (isAudio adaptationSet →
        (adaptationSetBody st (i, adaptationSet)).summary.Audios =
            st.summary.Audios ++
              adaptationSet.Representations.map (audioStreamOf adaptationSet) ∧
          ∀ rep : Representation, (audioStreamOf adaptationSet rep).Codec = c) := by
  refine ⟨fun hv => ⟨adaptationSetBody_isVideo st i adaptationSet hv, fun rep => ?_⟩,
    fun ha => ⟨adaptationSetBody_isAudio st i adaptationSet ha, fun rep => ?_⟩⟩
  · rw [videoStreamOf_Codec]
    exact codec_of_present _ _ c hc hne hunk
  · rw [audioStreamOf_Codec]
    exact codec_of_present _ _ c hc hne hunk

/-- C1, amended, at the end-to-end example: `exampleVideoSet` has Codecs
"avc1", and every stream built for it has codec "avc1". -/
theorem codec_precedence_witness :
    exampleVideoSet.Codecs = some "avc1" ∧ "avc1" ≠ "" ∧ "avc1" ≠ "unknown" ∧
      ((isVideo exampleVideoSet →
          (adaptationSetBody initialState (0, exampleVideoSet)).summary.Videos =
              initialState.summary.Videos ++
                exampleVideoSet.Representations.map (videoStreamOf exampleVideoSet) ∧
            ∀ rep : Representation, (videoStreamOf exampleVideoSet rep).Codec = "avc1") ∧
        (isAudio exampleVideoSet →
          (adaptationSetBody initialState (0, exampleVideoSet)).summary.Audios =
              initialState.summary.Audios ++
                exampleVideoSet.Representations.map (audioStreamOf exampleVideoSet) ∧
            ∀ rep : Representation, (audioStreamOf exampleVideoSet rep).Codec = "avc1")) :=
  ⟨rfl, by decide, by decide,
    codec_precedence initialState 0 exampleVideoSet "avc1" rfl (by decide) (by decide)⟩

/-- C2: for a classified AdaptationSet whose Codecs is absent or empty, the
loop body appends one stream per Representation, the codec of the stream built
for a Representation is the Representation-level Codecs when that is present
and non-empty and "unknown" when it is absent or empty; `extractCodec` returns
"unknown" for an absent or empty input and the input string otherwise. -/
theorem codec_fallback (st : State) (i : Nat) (adaptationSet : AdaptationSet)
    (hset : adaptationSet.Codecs = none ∨ adaptationSet.Codecs = some "") :
    (isVideo adaptationSet →
        (adaptationSetBody st (i, adaptationSet)).summary.Videos =
            st.summary.Videos ++
              adaptationSet.Representations.map (videoStreamOf adaptationSet) ∧
          ∀ rep : Representation,
            (∀ c : String, rep.Codecs = some c → c ≠ "" →
              (videoStreamOf adaptationSet rep).Codec = c) ∧
            (rep.Codecs = none ∨ rep.Codecs = some "" →
              (videoStreamOf adaptationSet rep).Codec = "unknown")) ∧
      (isAudio adaptationSet →
        (adaptationSetBody st (i, adaptationSet)).summary.Audios =
            st.summary.Audios ++
              adaptationSet.Representations.map (audioStreamOf adaptationSet) ∧
          ∀ rep : Representation,
            (∀ c : String, rep.Codecs = some c → c ≠ "" →
              (audioStreamOf adaptationSet rep).Codec = c) ∧
            (rep.Codecs = none ∨ rep.Codecs = some "" →
              (audioStreamOf adaptationSet rep).Codec = "unknown")) ∧
      extractCodec none = "unknown" ∧ extractCodec (some "") = "unknown" ∧
      ∀ s : String, s ≠ "" → extractCodec (some s) = s := by
  refine ⟨fun hv => ⟨adaptationSetBody_isVideo st i adaptationSet hv, fun rep => ⟨?_, ?_⟩⟩,
    fun ha => ⟨adaptationSetBody_isAudio st i adaptationSet ha, fun rep => ⟨?_, ?_⟩⟩,
    rfl, rfl, extractCodec_present⟩
  · intro c hc hne
    rw [videoStreamOf_Codec, codec_of_absent _ _ hset, hc, extractCodec_present c hne]
  · intro hrep
    rw [videoStreamOf_Codec, codec_of_absent _ _ hset, extractCodec_absent _ hrep]
    rfl
  · intro c hc hne
    rw [audioStreamOf_Codec, codec_of_absent _ _ hset, hc, extractCodec_present c hne]
  · intro hrep
    rw [audioStreamOf_Codec, codec_of_absent _ _ hset, extractCodec_absent _ hrep]
    rfl

/-- C2 at the example of the specification: AdaptationSet Codecs "" and
Representation Codecs "avc1.42C00D" give the codec "avc1.42C00D". -/
theorem codec_fallback_witness :
    (fallbackVideoSet.Codecs = none ∨ fallbackVideoSet.Codecs = some "") ∧
      isVideo fallbackVideoSet ∧
      (adaptationSetBody initialState (0, fallbackVideoSet)).summary.Videos =
        initialState.summary.Videos ++
          fallbackVideoSet.Representations.map (videoStreamOf fallbackVideoSet) ∧
      (∀ rep : Representation, rep.Codecs = some "avc1.42C00D" →
        (videoStreamOf fallbackVideoSet rep).Codec = "avc1.42C00D") :=
  ⟨Or.inr rfl, by decide,
    ((codec_fallback initialState 0 fallbackVideoSet (Or.inr rfl)).1 (by decide)).1,
    fun rep hrep =>
      (((codec_fallback initialState 0 fallbackVideoSet (Or.inr rfl)).1 (by decide)).2 rep).1
        "avc1.42C00D" hrep (by decide)⟩

/-! ## Classification -/

/-- C3: for an AdaptationSet with at least one Representation, the loop body
extends the videos list by a non-empty run exactly when ContentType is "video"
and MimeType is "video/mp4", extends the audios list by a non-empty run exactly
when ContentType is "audio" and MimeType is "audio/mp4", leaves both lists as
they were in every other case, and never extends both. -/
theorem classification (st : State) (i : Nat) (adaptationSet : AdaptationSet)
    (hreps : adaptationSet.Representations ≠ []) :
    ∃ (videos : List VideoStream) (audios : List AudioStream),
      (adaptationSetBody st (i, adaptationSet)).summary.Videos = st.summary.Videos ++ videos ∧
      (adaptationSetBody st (i, adaptationSet)).summary.Audios = st.summary.Audios ++ audios ∧
      (videos ≠ [] ↔
        adaptationSet.ContentType = some "video" ∧ adaptationSet.MimeType = some "video/mp4") ∧
      (audios ≠ [] ↔
        adaptationSet.ContentType = some "audio" ∧ adaptationSet.MimeType = some "audio/mp4") ∧
      ¬ (videos ≠ [] ∧ audios ≠ []) := by
  refine ⟨videosOf adaptationSet, audiosOf adaptationSet, ?_, ?_, ?_, ?_, ?_⟩
  · rw [adaptationSetBody_summary]
  · rw [adaptationSetBody_summary]
  · by_cases hv : isVideo adaptationSet
    · have hne : videosOf adaptationSet ≠ [] := by simp [videosOf, hv, hreps]
      exact ⟨fun _ => hv, fun _ => hne⟩
    · have he : videosOf adaptationSet = [] := by simp [videosOf, hv]
      exact ⟨fun h => absurd he h, fun h => absurd h hv⟩
  · by_cases ha : isAudio adaptationSet
    · have hne : audiosOf adaptationSet ≠ [] := by simp [audiosOf, ha, hreps]
      exact ⟨fun _ => ha, fun _ => hne⟩
    · have he : audiosOf adaptationSet = [] := by simp [audiosOf, ha]
      exact ⟨fun h => absurd he h, fun h => absurd h ha⟩
  · rintro ⟨hv, ha⟩
    by_cases hv' : isVideo adaptationSet
    · by_cases ha' : isAudio adaptationSet
      · exact not_isAudio_and_isVideo adaptationSet ⟨ha', hv'⟩
      · exact ha (by simp [audiosOf, ha'])
    · exact hv (by simp [videosOf, hv'])

/-- C3 at the end-to-end example: `exampleVideoSet` has two Representations and
extends the videos list only. -/
theorem classification_witness :
    exampleVideoSet.Representations ≠ [] ∧
      ∃ (videos : List VideoStream) (audios : List AudioStream),
        (adaptationSetBody initialState (0, exampleVideoSet)).summary.Videos =
          initialState.summary.Videos ++ videos ∧
        (adaptationSetBody initialState (0, exampleVideoSet)).summary.Audios =
          initialState.summary.Audios ++ audios ∧
        (videos ≠ [] ↔
          exampleVideoSet.ContentType = some "video" ∧
            exampleVideoSet.MimeType = some "video/mp4") ∧
        (audios ≠ [] ↔
          exampleVideoSet.ContentType = some "audio" ∧
            exampleVideoSet.MimeType = some "audio/mp4") ∧
        ¬ (videos ≠ [] ∧ audios ≠ []) :=
  ⟨by decide, classification initialState 0 exampleVideoSet (by decide)⟩

/-! ## Output order and counts -/

theorem videosInDocumentOrder_append (P1 P2 : List Period) :
    videosInDocumentOrder (P1 ++ P2) = videosInDocumentOrder P1 ++ videosInDocumentOrder P2 := by
  simp [videosInDocumentOrder, List.flatMap_append]

theorem audiosInDocumentOrder_append (P1 P2 : List Period) :
    audiosInDocumentOrder (P1 ++ P2) = audiosInDocumentOrder P1 ++ audiosInDocumentOrder P2 := by
  simp [audiosInDocumentOrder, List.flatMap_append]

theorem length_videosOf (adaptationSet : AdaptationSet) :
    (videosOf adaptationSet).length =
      if isVideo adaptationSet then adaptationSet.Representations.length else 0 := by
  by_cases hv : isVideo adaptationSet <;> simp [videosOf, hv]

theorem length_audiosOf (adaptationSet : AdaptationSet) :
    (audiosOf adaptationSet).length =
      if isAudio adaptationSet then adaptationSet.Representations.length else 0 := by
  by_cases ha : isAudio adaptationSet <;> simp [audiosOf, ha]

theorem length_videosInDocumentOrder (periods : List Period) :
    (videosInDocumentOrder periods).length =
      (periods.map (fun period =>
        (period.AdaptationSets.map (fun adaptationSet =>
          if isVideo adaptationSet then adaptationSet.Representations.length else 0)).sum)).sum := by
  simp only [videosInDocumentOrder, List.length_flatMap, List.map_map]
  congr 1
  apply List.map_congr_left
  intro period _
  simp only [Function.comp, List.length_flatMap, List.map_map]
  congr 1
  apply List.map_congr_left
  intro adaptationSet _
  exact length_videosOf adaptationSet

theorem length_audiosInDocumentOrder (periods : List Period) :
    (audiosInDocumentOrder periods).length =
      (periods.map (fun period =>
        (period.AdaptationSets.map (fun adaptationSet =>
          if isAudio adaptationSet then adaptationSet.Representations.length else 0)).sum)).sum := by
  simp only [audiosInDocumentOrder, List.length_flatMap, List.map_map]
  congr 1
  apply List.map_congr_left
  intro period _
  simp only [Function.comp, List.length_flatMap, List.map_map]
  congr 1
  apply List.map_congr_left
  intro adaptationSet _
  exact length_audiosOf adaptationSet

/-- C4: when the manifest deserializes to a tree, the videos list returned by
`parsePlaylist` is the concatenation, in document order Period then
AdaptationSet then Representation, of one VideoStream per Representation of
each video-classified AdaptationSet, and the audios list is the same over the
audio-classified ones; and when the Periods of the tree are `P1` followed by
`P2`, the result is the field-wise concatenation of the results for a tree
with Periods `P1` and a tree with Periods `P2`. -/
theorem output_order (ReadFromString : String → Except String MPD) (manifestBytes : String)
    (mpd : MPD) (hread : ReadFromString manifestBytes = Except.ok mpd) :
    (parsePlaylist ReadFromString manifestBytes).summary.Videos =
        mpd.Periods.flatMap (fun period =>
          period.AdaptationSets.flatMap (fun adaptationSet =>
            if isVideo adaptationSet then
              adaptationSet.Representations.map (videoStreamOf adaptationSet)
            else [])) ∧
      (parsePlaylist ReadFromString manifestBytes).summary.Audios =
        mpd.Periods.flatMap (fun period =>
          period.AdaptationSets.flatMap (fun adaptationSet =>
            if isAudio adaptationSet then
              adaptationSet.Representations.map (audioStreamOf adaptationSet)
            else [])) ∧
      ∀ (first second : String) (P1 P2 : List Period),
        mpd.Periods = P1 ++ P2 →
        ReadFromString first = Except.ok { Periods := P1 } →
        ReadFromString second = Except.ok { Periods := P2 } →
          (parsePlaylist ReadFromString manifestBytes).summary.Videos =
              (parsePlaylist ReadFromString first).summary.Videos ++
                (parsePlaylist ReadFromString second).summary.Videos ∧
            (parsePlaylist ReadFromString manifestBytes).summary.Audios =
              (parsePlaylist ReadFromString first).summary.Audios ++
                (parsePlaylist ReadFromString second).summary.Audios := by
  have h := (parsePlaylist_ok ReadFromString manifestBytes mpd hread).1
  refine ⟨?_, ?_, ?_⟩
  · rw [h]; rfl
  · rw [h]; rfl
  · intro first second P1 P2 hP h1 h2
    rw [h, (parsePlaylist_ok ReadFromString first _ h1).1,
      (parsePlaylist_ok ReadFromString second _ h2).1, hP]
    exact ⟨videosInDocumentOrder_append P1 P2, audiosInDocumentOrder_append P1 P2⟩

/-- C4 at a two-Period document: the reader `exampleReader` yields the tree
with the video Period followed by the audio Period for "both", and the result
is the concatenation of the results for "first" and "second". -/
theorem output_order_witness :
    exampleReader "both" =
        Except.ok
          { Periods :=
              [{ AdaptationSets := [exampleVideoSet] }, { AdaptationSets := [exampleAudioSet] }] } ∧
      (parsePlaylist exampleReader "both").summary.Videos =
        (parsePlaylist exampleReader "first").summary.Videos ++
          (parsePlaylist exampleReader "second").summary.Videos ∧
      (parsePlaylist exampleReader "both").summary.Audios =
        (parsePlaylist exampleReader "first").summary.Audios ++
          (parsePlaylist exampleReader "second").summary.Audios :=
  ⟨rfl,
    (output_order exampleReader "both"
        { Periods :=
            [{ AdaptationSets := [exampleVideoSet] }, { AdaptationSets := [exampleAudioSet] }] }
        rfl).2.2 "first" "second"
      [{ AdaptationSets := [exampleVideoSet] }] [{ AdaptationSets := [exampleAudioSet] }]
      rfl rfl rfl⟩

/-- C5: the loop body appends exactly N VideoStream entries for a
video-classified AdaptationSet with N Representations and exactly N AudioStream
entries for an audio-classified one; when the manifest deserializes to a tree,
the length of videos is the sum of the Representation counts of all
video-classified AdaptationSets (likewise for audios); and the tree of the
end-to-end example yields its two video streams and an empty audios list. -/
theorem one_stream_per_representation (ReadFromString : String → Except String MPD)
    (manifestBytes : String) (mpd : MPD)
    (hread : ReadFromString manifestBytes = Except.ok mpd) :
    (∀ (st : State) (i : Nat) (adaptationSet : AdaptationSet), isVideo adaptationSet →
        (adaptationSetBody st (i, adaptationSet)).summary.Videos.length =
          st.summary.Videos.length + adaptationSet.Representations.length) ∧
      (∀ (st : State) (i : Nat) (adaptationSet : AdaptationSet), isAudio adaptationSet →
        (adaptationSetBody st (i, adaptationSet)).summary.Audios.length =
          st.summary.Audios.length + adaptationSet.Representations.length) ∧
      (parsePlaylist ReadFromString manifestBytes).summary.Videos.length =
        (mpd.Periods.map (fun period =>
          (period.AdaptationSets.map (fun adaptationSet =>
            if isVideo adaptationSet then adaptationSet.Representations.length
            else 0)).sum)).sum ∧
      (parsePlaylist ReadFromString manifestBytes).summary.Audios.length =
        (mpd.Periods.map (fun period =>
          (period.AdaptationSets.map (fun adaptationSet =>
            if isAudio adaptationSet then adaptationSet.Representations.length
            else 0)).sum)).sum ∧
      (parsePlaylist (fun _ => Except.ok exampleTree) manifestBytes).summary =
        { Videos :=
            [ { Codec := "avc1", Bitrate := "500000", Resolution := "640x360" },
              { Codec := "avc1", Bitrate := "1000000", Resolution := "1280x720" } ]
          Audios := [] } := by
  have h := (parsePlaylist_ok ReadFromString manifestBytes mpd hread).1
  refine ⟨?_, ?_, ?_, ?_, ?_⟩
  · intro st i adaptationSet hv
    rw [adaptationSetBody_isVideo st i adaptationSet hv, List.length_append, List.length_map]
  · intro st i adaptationSet ha
    rw [adaptationSetBody_isAudio st i adaptationSet ha, List.length_append, List.length_map]
  · rw [h]; exact length_videosInDocumentOrder mpd.Periods
  · rw [h]; exact length_audiosInDocumentOrder mpd.Periods
  · rw [(parsePlaylist_ok (fun _ => Except.ok exampleTree) manifestBytes exampleTree rfl).1]
    decide

/-- C5 at the end-to-end example: two Representations, two video streams. -/
theorem one_stream_per_representation_witness :
    (fun _ => Except.ok exampleTree : String → Except String MPD) "" = Except.ok exampleTree ∧
      (parsePlaylist (fun _ => Except.ok exampleTree) "").summary.Videos.length = 2 ∧
      (parsePlaylist (fun _ => Except.ok exampleTree) "").summary.Audios.length = 0 :=
  ⟨rfl,
    (one_stream_per_representation (fun _ => Except.ok exampleTree) "" exampleTree rfl).2.2.1.trans
      (by decide),
    (one_stream_per_representation (fun _ => Except.ok exampleTree) "" exampleTree rfl).2.2.2.1.trans
      (by decide)⟩

/-! ## Sentinel policy -/

theorem videoStreamOf_fields (adaptationSet : AdaptationSet) (rep : Representation) :
    (videoStreamOf adaptationSet rep).Codec ≠ "" ∧
      (videoStreamOf adaptationSet rep).Bitrate ≠ "" ∧
      (videoStreamOf adaptationSet rep).Resolution ≠ "" := by
  refine ⟨?_, extractBitrate_ne_empty _, extractResolution_ne_empty _ _⟩
  rw [videoStreamOf_Codec]
  split
  · exact extractCodec_ne_empty _
  · exact extractCodec_ne_empty _

theorem audioStreamOf_fields (adaptationSet : AdaptationSet) (rep : Representation) :
    (audioStreamOf adaptationSet rep).Codec ≠ "" ∧
      (audioStreamOf adaptationSet rep).Bitrate ≠ "" ∧
      (audioStreamOf adaptationSet rep).Channels ≠ "" ∧
      (audioStreamOf adaptationSet rep).Language ≠ "" := by
  refine ⟨?_, extractBitrate_ne_empty _, ?_, extractLanguage_ne_empty _⟩
  · rw [audioStreamOf_Codec]
    split
    · exact extractCodec_ne_empty _
    · exact extractCodec_ne_empty _
  · rw [audioStreamOf_Channels]
    split
    · exact extractChannelConfiguration_ne_empty _
    · exact extractChannelDescriptors_ne_empty _

theorem mem_videosInDocumentOrder (periods : List Period) (v : VideoStream)
    (hv : v ∈ videosInDocumentOrder periods) :
    ∃ (adaptationSet : AdaptationSet) (rep : Representation),
      v = videoStreamOf adaptationSet rep := by
  simp only [videosInDocumentOrder, List.mem_flatMap] at hv
  obtain ⟨period, _, adaptationSet, _, hmem⟩ := hv
  by_cases h : isVideo adaptationSet
  · simp only [videosOf, if_pos h, List.mem_map] at hmem
    obtain ⟨rep, _, hrep⟩ := hmem
    exact ⟨adaptationSet, rep, hrep.symm⟩
  · simp [videosOf, h] at hmem

theorem mem_audiosInDocumentOrder (periods : List Period) (a : AudioStream)
    (ha : a ∈ audiosInDocumentOrder periods) :
    ∃ (adaptationSet : AdaptationSet) (rep : Representation),
      a = audioStreamOf adaptationSet rep := by
  simp only [audiosInDocumentOrder, List.mem_flatMap] at ha
  obtain ⟨period, _, adaptationSet, _, hmem⟩ := ha
  by_cases h : isAudio adaptationSet
  · simp only [audiosOf, if_pos h, List.mem_map] at hmem
    obtain ⟨rep, _, hrep⟩ := hmem
    exact ⟨adaptationSet, rep, hrep.symm⟩
  · simp [audiosOf, h] at hmem

/-! ## Resolution and bitrate -/

theorem FormatInt_of_nonneg (x : Int) (hx : 0 ≤ x) : FormatInt x = Nat.repr x.toNat := by
  cases x with
  | ofNat n => rfl
  | negSucc n => exact absurd hx (by simp)

/-- C7: for optional width and height whose present values are at least
zero, `extractResolution` returns the base-10 digits of the width, the
character x and the base-10 digits of the height when both are present and
non-zero (each run of digits reads back as the number), returns "unknown" when
either is absent or zero, and returns nothing else. -/
theorem resolution_format (width height : Option Int)
    (hwidth : ∀ w : Int, width = some w → 0 ≤ w)
    (hheight : ∀ h : Int, height = some h → 0 ≤ h) :
    (∀ w h : Int, width = some w → height = some h → w ≠ 0 → h ≠ 0 →
        extractResolution width height = Nat.repr w.toNat ++ "x" ++ Nat.repr h.toNat ∧
          parseDecimal (Nat.repr w.toNat) = some w ∧
          parseDecimal (Nat.repr h.toNat) = some h) ∧
      (width = none ∨ height = none ∨ width = some 0 ∨ height = some 0 →
        extractResolution width height = "unknown") ∧
      (extractResolution width height = "unknown" ∨
        ∃ w h : Int, width = some w ∧ height = some h ∧ w ≠ 0 ∧ h ≠ 0 ∧
          extractResolution width height = Nat.repr w.toNat ++ "x" ++ Nat.repr h.toNat) := by
  have hfull : ∀ w h : Int, width = some w → height = some h → w ≠ 0 → h ≠ 0 →
      extractResolution width height = Nat.repr w.toNat ++ "x" ++ Nat.repr h.toNat := by
    intro w h hw hh hw0 hh0
    subst hw hh
    have h0 : ¬ (w = 0 ∨ h = 0) := by
      rintro (h | h)
      · exact hw0 h
      · exact hh0 h
    simp only [extractResolution, if_neg h0]
    rw [FormatInt_of_nonneg w (hwidth w rfl), FormatInt_of_nonneg h (hheight h rfl)]
  refine ⟨?_, ?_, ?_⟩
  · intro w h hw hh hw0 hh0
    refine ⟨hfull w h hw hh hw0 hh0, ?_, ?_⟩
    · rw [← FormatInt_of_nonneg w (hwidth w hw)]
      exact parseDecimal_FormatInt w
    · rw [← FormatInt_of_nonneg h (hheight h hh)]
      exact parseDecimal_FormatInt h
  · intro habs
    cases width with
    | none => rfl
    | some w =>
      cases height with
      | none => rfl
      | some h =>
        have h0 : w = 0 ∨ h = 0 := by
          rcases habs with hc | hc | hc | hc
          · exact absurd hc (by simp)
          · exact absurd hc (by simp)
          · exact Or.inl (Option.some.inj hc)
          · exact Or.inr (Option.some.inj hc)
        simp only [extractResolution, if_pos h0]
        rfl
  · cases hw : width with
    | none => exact Or.inl rfl
    | some w =>
      cases hh : height with
      | none => exact Or.inl rfl
      | some h =>
        by_cases h0 : w = 0 ∨ h = 0
        · left
          simp only [extractResolution, if_pos h0]
          rfl
        · right
          have hw0 : w ≠ 0 := fun e => h0 (Or.inl e)
          have hh0 : h ≠ 0 := fun e => h0 (Or.inr e)
          refine ⟨w, h, rfl, rfl, hw0, hh0, ?_⟩
          rw [← hw, ← hh]
          exact hfull w h hw hh hw0 hh0

/-- C7 at the example of the specification: width 1920 and height 1080 give
"1920x1080". -/
theorem resolution_format_witness :
    (∀ w : Int, some (1920 : Int) = some w → 0 ≤ w) ∧
      (∀ h : Int, some (1080 : Int) = some h → 0 ≤ h) ∧
      extractResolution (some 1920) (some 1080) = "1920x1080" :=
  ⟨fun w hw => by rw [← Option.some.inj hw]; decide,
    fun h hh => by rw [← Option.some.inj hh]; decide,
    ((resolution_format (some 1920) (some 1080)
        (fun w hw => by rw [← Option.some.inj hw]; decide)
        (fun h hh => by rw [← Option.some.inj hh]; decide)).1
      1920 1080 rfl rfl (by decide) (by decide)).1.trans (by decide)⟩

/-- C8: `extractBitrate` returns "unknown" if and only if the bandwidth is
absent or zero; otherwise it returns the base-10 rendering of the bandwidth,
and parsing that string as a decimal integer gives back the bandwidth; 0 gives
"unknown" and 128000 gives "128000". The statement covers every integer, hence
every 64-bit one. -/
theorem bitrate_format (bandwidth : Option Int) :
    (extractBitrate bandwidth = "unknown" ↔ bandwidth = none ∨ bandwidth = some 0) ∧
      (∀ b : Int, bandwidth = some b → b ≠ 0 →
        extractBitrate bandwidth = FormatInt b ∧
          parseDecimal (extractBitrate bandwidth) = some b) ∧
      extractBitrate (some 0) = "unknown" ∧ extractBitrate (some 128000) = "128000" := by
  refine ⟨?_, ?_, by decide, by decide⟩
  · cases bandwidth with
    | none => simp [extractBitrate, unknown]
    | some b =>
      by_cases h0 : b = 0
      · simp [extractBitrate, unknown, h0]
      · have hne : FormatInt b ≠ "unknown" := FormatInt_ne_unknown b
        simp [extractBitrate, h0, hne]
  · intro b hb h0
    subst hb
    have he : extractBitrate (some b) = FormatInt b := by simp [extractBitrate, h0]
    exact ⟨he, by rw [he]; exact parseDecimal_FormatInt b⟩

/-! ## Channels -/

theorem presentValues_eq_nil_iff (descriptors : List DescriptorType) :
    presentValues descriptors = [] ↔
      ∀ d ∈ descriptors, d.Value = none ∨ d.Value = some "" := by
  rw [List.eq_nil_iff_forall_not_mem]
  constructor
  · intro h d hd
    cases hv : d.Value with
    | none => exact Or.inl rfl
    | some v =>
      right
      by_contra hne
      have hv' : v ≠ "" := fun e => hne (by rw [e])
      exact h v ((mem_presentValues descriptors v).2 ⟨⟨d, hd, hv⟩, hv'⟩)
  · intro h v hv
    obtain ⟨⟨d, hd, hdv⟩, hne⟩ := (mem_presentValues descriptors v).1 hv
    rcases h d hd with hn | he
    · rw [hn] at hdv; exact absurd hdv (by simp)
    · rw [he] at hdv; exact hne (Option.some.inj hdv).symm

/-- C9, counterexample: the descriptor list `sentinelDescriptors` has a
descriptor with a present, non-empty Value, the text "unknown", and
`extractChannelDescriptors` returns "unknown" for it. -/
theorem channel_descriptor_join_counterexample :
    extractChannelDescriptors sentinelDescriptors = "unknown" ∧
      ∃ d ∈ sentinelDescriptors, ∃ v : String, d.Value = some v ∧ v ≠ "" := by
  decide

/-- C9, amended: `extractChannelDescriptors` returns the Values that are
present and non-empty, in their original order, joined by a single comma
(Values "A", "", "B" give "A,B"), returns "unknown" when no descriptor has a
present, non-empty Value, and returns "unknown" exactly when no descriptor has
one or the present, non-empty Values are the single text "unknown". -/
theorem channel_descriptor_join (descriptors : List DescriptorType) :
    (presentValues descriptors ≠ [] →
        extractChannelDescriptors descriptors = joinWithComma (presentValues descriptors)) ∧
      ((∀ d ∈ descriptors, d.Value = none ∨ d.Value = some "") →
        extractChannelDescriptors descriptors = "unknown") ∧
      (extractChannelDescriptors descriptors = "unknown" ↔
        (∀ d ∈ descriptors, d.Value = none ∨ d.Value = some "") ∨
          presentValues descriptors = ["unknown"]) ∧
      extractChannelDescriptors
          [ { SchemeIDURI := none, Value := some "A", ID := none },
            { SchemeIDURI := none, Value := some "", ID := none },
            { SchemeIDURI := none, Value := some "B", ID := none } ] = "A,B" := by
  have heq := extractChannelDescriptors_eq descriptors
  refine ⟨?_, ?_, ?_, by decide⟩
  · intro hne
    rw [heq, if_neg hne]
  · intro hnone
    rw [heq, if_pos ((presentValues_eq_nil_iff descriptors).2 hnone)]
    rfl
  · rw [← presentValues_eq_nil_iff]
    by_cases hnil : presentValues descriptors = []
    · rw [heq, if_pos hnil]
      exact ⟨fun _ => Or.inl hnil, fun _ => rfl⟩
    · rw [heq, if_neg hnil]
      have hj := joinWithComma_eq_unknown (presentValues descriptors) hnil
      constructor
      · intro h
        exact Or.inr (hj.1 h)
      · rintro (h | h)
        · exact absurd h hnil
        · exact hj.2 h

/-- C10: for an audio-classified AdaptationSet in which no channel descriptor
has a present, non-empty Value, the loop body appends one stream per
Representation, and the channels field of the stream built for a
Representation is the Value of its channel configuration when the
configuration and its Value are present and non-empty, and "unknown" when the
configuration is absent, its Value is absent, or its Value is empty. -/
theorem channels_fallback (st : State) (i : Nat) (adaptationSet : AdaptationSet)
    (haudio : isAudio adaptationSet)
    (hnone : ∀ d ∈ adaptationSet.AudioChannelConfiguration,
      d.Value = none ∨ d.Value = some "") :
    (adaptationSetBody st (i, adaptationSet)).summary.Audios =
        st.summary.Audios ++ adaptationSet.Representations.map (audioStreamOf adaptationSet) ∧
      ∀ rep : Representation,
        (∀ (cc : AudioChannelConfiguration) (v : String),
          rep.AudioChannelConfiguration = some cc → cc.Value = some v → v ≠ "" →
            (audioStreamOf adaptationSet rep).Channels = v) ∧
        (rep.AudioChannelConfiguration = none →
          (audioStreamOf adaptationSet rep).Channels = "unknown") ∧
        (∀ cc : AudioChannelConfiguration, rep.AudioChannelConfiguration = some cc →
          cc.Value = none ∨ cc.Value = some "" →
            (audioStreamOf adaptationSet rep).Channels = "unknown") := by
  have hdesc : extractChannelDescriptors adaptationSet.AudioChannelConfiguration = unknown := by
    rw [extractChannelDescriptors_eq, if_pos ((presentValues_eq_nil_iff _).2 hnone)]
  have hch : ∀ rep : Representation, (audioStreamOf adaptationSet rep).Channels =
      extractChannelConfiguration rep.AudioChannelConfiguration := by
    intro rep
    rw [audioStreamOf_Channels, if_pos hdesc]
  refine ⟨adaptationSetBody_isAudio st i adaptationSet haudio, fun rep => ⟨?_, ?_, ?_⟩⟩
  · intro cc v hcc hv hne
    rw [hch, hcc]
    simp [extractChannelConfiguration, hv, hne]
  · intro hcc
    rw [hch, hcc]
    rfl
  · intro cc hcc hv
    rw [hch, hcc]
    rcases hv with hv | hv <;> simp [extractChannelConfiguration, hv, unknown]

/-- C10 at `exampleAudioSet`: its only descriptor has an empty Value; the
Representation with channel configuration Value "2" gets channels "2", the one
without configuration and the one whose configuration has no Value get
"unknown". -/
theorem channels_fallback_witness :
    isAudio exampleAudioSet ∧
      (∀ d ∈ exampleAudioSet.AudioChannelConfiguration, d.Value = none ∨ d.Value = some "") ∧
      (adaptationSetBody initialState (0, exampleAudioSet)).summary.Audios =
        initialState.summary.Audios ++
          exampleAudioSet.Representations.map (audioStreamOf exampleAudioSet) ∧
      (exampleAudioSet.Representations.map (audioStreamOf exampleAudioSet)).map
          AudioStream.Channels = ["2", "unknown", "unknown"] :=
  ⟨by decide, by decide,
    (channels_fallback initialState 0 exampleAudioSet (by decide) (by decide)).1, by decide⟩

/-! ## Language -/

theorem audioStreamOf_Language (adaptationSet : AdaptationSet) (rep : Representation) :
    (audioStreamOf adaptationSet rep).Language = extractLanguage adaptationSet.Lang := rfl

/-- C11: for an audio-classified AdaptationSet, the loop body appends one
stream per Representation, and the language field of the stream built for a
Representation is the AdaptationSet-level Lang verbatim when Lang is present
and non-empty and "unknown" when Lang is absent or empty; it is the same for
any two Representations. -/
theorem language_field (st : State) (i : Nat) (adaptationSet : AdaptationSet)
    (haudio : isAudio adaptationSet) :
    (adaptationSetBody st (i, adaptationSet)).summary.Audios =
        st.summary.Audios ++ adaptationSet.Representations.map (audioStreamOf adaptationSet) ∧
      (∀ rep : Representation,
        (∀ l : String, adaptationSet.Lang = some l → l ≠ "" →
          (audioStreamOf adaptationSet rep).Language = l) ∧
        (adaptationSet.Lang = none ∨ adaptationSet.Lang = some "" →
          (audioStreamOf adaptationSet rep).Language = "unknown")) ∧
      ∀ rep rep' : Representation,
        (audioStreamOf adaptationSet rep).Language =
          (audioStreamOf adaptationSet rep').Language := by
  refine ⟨adaptationSetBody_isAudio st i adaptationSet haudio, fun rep => ⟨?_, ?_⟩,
    fun rep rep' => rfl⟩
  · intro l hl hne
    rw [audioStreamOf_Language, hl]
    simp [extractLanguage, hne]
  · intro h
    rw [audioStreamOf_Language]
    rcases h with h | h <;> simp [extractLanguage, h, unknown]

/-- C11 at `exampleAudioSet`, whose Lang is "en": every stream built for it
has language "en". -/
theorem language_field_witness :
    isAudio exampleAudioSet ∧
      (adaptationSetBody initialState (0, exampleAudioSet)).summary.Audios =
        initialState.summary.Audios ++
          exampleAudioSet.Representations.map (audioStreamOf exampleAudioSet) ∧
      (∀ rep : Representation, (audioStreamOf exampleAudioSet rep).Language = "en") :=
  ⟨by decide, (language_field initialState 0 exampleAudioSet (by decide)).1,
    fun rep =>
      ((language_field initialState 0 exampleAudioSet (by decide)).2.1 rep).1 "en" rfl
        (by decide)⟩

/-! ## Diagnostics -/

theorem adaptationSetBody_absent (st : State) (i : Nat) (adaptationSet : AdaptationSet)
    (h : adaptationSet.ContentType = none ∨ adaptationSet.MimeType = none) :
    adaptationSetBody st (i, adaptationSet) =
      { summary := st.summary, stdout := st.stdout ++ [skipMessage i] } := by
  obtain ⟨ct, mt, codecs, lang, descs, reps⟩ := adaptationSet
  rcases h with h | h
  · simp only at h
    subst h
    rfl
  · simp only at h
    subst h
    cases ct <;> rfl

theorem adaptationSetBody_stdout (st : State) (entry : Nat × AdaptationSet) :
    (adaptationSetBody st entry).stdout = st.stdout ++ diagnosticsOf entry := by
  obtain ⟨i, adaptationSet⟩ := entry
  by_cases h : hasAbsentDiscriminator adaptationSet
  · rw [adaptationSetBody_absent st i adaptationSet h]
    simp [diagnosticsOf, h]
  · have h' := h
    simp only [hasAbsentDiscriminator, not_or] at h'
    obtain ⟨ct, hct⟩ := Option.ne_none_iff_exists'.1 h'.1
    obtain ⟨mt, hmt⟩ := Option.ne_none_iff_exists'.1 h'.2
    simp [adaptationSetBody, hct, hmt, diagnosticsOf, h]

theorem foldl_adaptationSetBody_stdout (entries : List (Nat × AdaptationSet)) (st : State) :
    (entries.foldl adaptationSetBody st).stdout = st.stdout ++ entries.flatMap diagnosticsOf := by
  induction entries generalizing st with
  | nil => simp
  | cons e rest ih =>
    simp only [List.foldl_cons, ih, adaptationSetBody_stdout, List.flatMap_cons,
      List.append_assoc]

theorem foldl_periodBody_stdout (periods : List Period) (st : State) :
    (periods.foldl periodBody st).stdout = st.stdout ++ diagnosticsInDocumentOrder periods := by
  induction periods generalizing st with
  | nil => simp [diagnosticsInDocumentOrder]
  | cons p rest ih =>
    simp only [List.foldl_cons, ih, periodBody, foldl_adaptationSetBody_stdout,
      diagnosticsInDocumentOrder, List.flatMap_cons, List.append_assoc]

theorem parsePlaylist_stdout (ReadFromString : String → Except String MPD)
    (manifestBytes : String) (mpd : MPD) (hread : ReadFromString manifestBytes = Except.ok mpd) :
    (parsePlaylist ReadFromString manifestBytes).stdout =
      diagnosticsInDocumentOrder mpd.Periods := by
  simp [parsePlaylist, hread, traverse, foldl_periodBody_stdout]

theorem length_flatMap_diagnosticsOf (sets : List AdaptationSet) (n : Nat) :
    ((sets.enumFrom n).flatMap diagnosticsOf).length =
      sets.countP (fun adaptationSet => decide (hasAbsentDiscriminator adaptationSet)) := by
  induction sets generalizing n with
  | nil => simp
  | cons a rest ih =>
    rw [List.enumFrom_cons, List.flatMap_cons, List.length_append, ih, List.countP_cons]
    by_cases h : hasAbsentDiscriminator a
    · simp [diagnosticsOf, h]; omega
    · simp [diagnosticsOf, h]

theorem length_diagnosticsInDocumentOrder (periods : List Period) :
    (diagnosticsInDocumentOrder periods).length = countAbsentDiscriminator periods := by
  simp only [diagnosticsInDocumentOrder, countAbsentDiscriminator, List.length_flatMap,
    List.map_map]
  congr 1
  apply List.map_congr_left
  intro period _
  exact length_flatMap_diagnosticsOf period.AdaptationSets 0

theorem isUnclassified_of_absent (adaptationSet : AdaptationSet)
    (h : hasAbsentDiscriminator adaptationSet) : isUnclassified adaptationSet := by
  constructor
  · rintro ⟨hct, hmt⟩
    rcases h with h | h
    · rw [h] at hct; exact absurd hct (by simp)
    · rw [h] at hmt; exact absurd hmt (by simp)
  · rintro ⟨hct, hmt⟩
    rcases h with h | h
    · rw [h] at hct; exact absurd hct (by simp)
    · rw [h] at hmt; exact absurd hmt (by simp)

theorem skipMessage_eq (i : Nat) :
    skipMessage i =
      "AdaptationSet " ++ Nat.repr i ++ ": ContentType or MimeType is nil, skipping...\n" := rfl

theorem skipMessage_injective (i j : Nat) (h : skipMessage i = skipMessage j) : i = j := by
  have hd := congrArg String.data h
  simp only [skipMessage_eq, String.data_append] at hd
  have h2 := List.append_cancel_left (List.append_cancel_right hd)
  have hi := (repr_data_spec i).2.2
  rw [h2, (repr_data_spec j).2.2] at hi
  exact (Option.some.inj hi).symm

theorem countAbsentDiscriminator_le (periods : List Period) :
    countAbsentDiscriminator periods ≤ countUnclassified periods := by
  simp only [countAbsentDiscriminator, countUnclassified]
  apply List.sum_le_sum
  intro period _
  apply List.countP_mono_left
  intro adaptationSet _ h
  simp only [decide_eq_true_eq] at h ⊢
  exact isUnclassified_of_absent adaptationSet h

/-- C12, counterexample: the document with the single AdaptationSet `textSet`
(ContentType "text", MimeType "application/ttml+xml", both present) has one
Unclassified AdaptationSet, and `parsePlaylist` prints no diagnostic for it. -/
theorem diagnostics_count_counterexample :
    isUnclassified textSet ∧ countUnclassified [{ AdaptationSets := [textSet] }] = 1 ∧
      (parsePlaylist (fun _ => Except.ok { Periods := [{ AdaptationSets := [textSet] }] })
          "").stdout = [] := by
  decide

/-- C12, amended: when the manifest deserializes to a tree, the traversal
emits exactly one diagnostic for each AdaptationSet whose ContentType or
MimeType is absent, in document order and with its index in the Period, and
none for any other AdaptationSet; so the number of diagnostics equals the
number of AdaptationSets with an absent ContentType or MimeType, each of which
is Unclassified, and is at most the number of Unclassified AdaptationSets. -/
theorem diagnostics_count (ReadFromString : String → Except String MPD)
    (manifestBytes : String) (mpd : MPD)
    (hread : ReadFromString manifestBytes = Except.ok mpd) :
    (parsePlaylist ReadFromString manifestBytes).stdout =
        mpd.Periods.flatMap (fun period =>
          period.AdaptationSets.enum.flatMap (fun entry =>
            if entry.2.ContentType = none ∨ entry.2.MimeType = none then [skipMessage entry.1]
            else [])) ∧
      (parsePlaylist ReadFromString manifestBytes).stdout.length =
        (mpd.Periods.map (fun period =>
          period.AdaptationSets.countP (fun adaptationSet =>
            decide (adaptationSet.ContentType = none ∨ adaptationSet.MimeType = none)))).sum ∧
      (∀ adaptationSet : AdaptationSet,
        adaptationSet.ContentType = none ∨ adaptationSet.MimeType = none →
          isUnclassified adaptationSet) ∧
      (parsePlaylist ReadFromString manifestBytes).stdout.length ≤
        countUnclassified mpd.Periods := by
  have h := parsePlaylist_stdout ReadFromString manifestBytes mpd hread
  refine ⟨?_, ?_, isUnclassified_of_absent, ?_⟩
  · rw [h]; rfl
  · rw [h, length_diagnosticsInDocumentOrder]; rfl
  · rw [h, length_diagnosticsInDocumentOrder]
    exact countAbsentDiscriminator_le mpd.Periods

/-- C12, amended, at a Period holding `textSet` and then `absentMimeSet`: one
diagnostic, the one for index 1, while two AdaptationSets are Unclassified. -/
theorem diagnostics_count_witness :
    (fun _ => Except.ok { Periods := [{ AdaptationSets := [textSet, absentMimeSet] }] } :
        String → Except String MPD) "" =
        Except.ok { Periods := [{ AdaptationSets := [textSet, absentMimeSet] }] } ∧
      (parsePlaylist
          (fun _ => Except.ok { Periods := [{ AdaptationSets := [textSet, absentMimeSet] }] })
          "").stdout = [skipMessage 1] ∧
      countUnclassified [{ AdaptationSets := [textSet, absentMimeSet] }] = 2 :=
  ⟨rfl,
    (diagnostics_count
        (fun _ => Except.ok { Periods := [{ AdaptationSets := [textSet, absentMimeSet] }] }) ""
        { Periods := [{ AdaptationSets := [textSet, absentMimeSet] }] } rfl).1.trans
      (by decide),
    by decide⟩

/-- C17: for an AdaptationSet whose ContentType or MimeType is absent, the
loop body leaves the summary as it was, whatever Representations the
AdaptationSet holds, and prints exactly one line; within a Period the line
carries the zero-based position of the AdaptationSet in that Period, and the
loop goes on with the AdaptationSets after it; the line spells the index in
base 10, and lines for different indices differ. -/
theorem skip_on_absent_discriminator (adaptationSet : AdaptationSet)
    (habsent : adaptationSet.ContentType = none ∨ adaptationSet.MimeType = none) :
    (∀ (st : State) (i : Nat),
        (adaptationSetBody st (i, adaptationSet)).summary = st.summary ∧
          (adaptationSetBody st (i, adaptationSet)).stdout = st.stdout ++ [skipMessage i]) ∧
      (∀ (st : State) (before after : List AdaptationSet),
        periodBody st { AdaptationSets := before ++ adaptationSet :: after } =
          (after.enumFrom (before.length + 1)).foldl adaptationSetBody
            { summary := (before.enum.foldl adaptationSetBody st).summary
              stdout :=
                (before.enum.foldl adaptationSetBody st).stdout ++
                  [skipMessage before.length] }) ∧
      (∀ i : Nat,
        skipMessage i =
          "AdaptationSet " ++ Nat.repr i ++ ": ContentType or MimeType is nil, skipping...\n") ∧
      ∀ i j : Nat, skipMessage i = skipMessage j → i = j := by
  refine ⟨?_, ?_, skipMessage_eq, skipMessage_injective⟩
  · intro st i
    rw [adaptationSetBody_absent st i adaptationSet habsent]
    exact ⟨rfl, rfl⟩
  · intro st before after
    simp only [periodBody, List.enum, List.enumFrom_append, List.enumFrom_cons,
      List.foldl_append, List.foldl_cons, Nat.zero_add]
    rw [adaptationSetBody_absent _ _ adaptationSet habsent]

/-- C17 at the example of the specification: `absentMimeSet` has ContentType
"video" and no MimeType; placed after `exampleVideoSet` in a Period it leaves
the two video streams as they are and prints one line, for index 1. -/
theorem skip_on_absent_discriminator_witness :
    (absentMimeSet.ContentType = none ∨ absentMimeSet.MimeType = none) ∧
      (adaptationSetBody initialState (0, absentMimeSet)).summary = initialState.summary ∧
      (adaptationSetBody initialState (0, absentMimeSet)).stdout =
        initialState.stdout ++ [skipMessage 0] ∧
      (periodBody initialState
          { AdaptationSets := [exampleVideoSet] ++ absentMimeSet :: [] }).stdout =
        ["AdaptationSet 1: ContentType or MimeType is nil, skipping...\n"] :=
  ⟨Or.inr rfl,
    ((skip_on_absent_discriminator absentMimeSet (Or.inr rfl)).1 initialState 0).1,
    ((skip_on_absent_discriminator absentMimeSet (Or.inr rfl)).1 initialState 0).2,
    (congrArg State.stdout
        ((skip_on_absent_discriminator absentMimeSet (Or.inr rfl)).2.1 initialState
          [exampleVideoSet] [])).trans (by decide)⟩

/-! ## Fetching -/

theorem length_oversizedBody : (oversizedBody.length : Int) = maxPlaylistSizeBytes + 1 := by
  simp only [oversizedBody, List.length_replicate, maxPlaylistSizeBytes]
  norm_num

theorem fetchPlaylist_success (NewRequestWithContext : String → String → Except String Request)
    (Do : Request → Except String Response) (target : String)
    (hok : (fetchPlaylist NewRequestWithContext Do target).err = none) :
    ∃ (req : Request) (resp : Response),
      Do req = Except.ok resp ∧ resp.StatusCode = 200 ∧ resp.ContentLength ≠ 0 ∧
        resp.ContentLength ≤ maxPlaylistSizeBytes ∧
        resp.Body = Except.ok (fetchPlaylist NewRequestWithContext Do target).text := by
  unfold fetchPlaylist at hok ⊢
  cases hreq : NewRequestWithContext "GET" target with
  | error e => simp [hreq] at hok
  | ok req =>
    simp only [hreq] at hok ⊢
    cases hdo : Do _ with
    | error e => simp [hdo] at hok
    | ok resp =>
      simp only [hdo] at hok ⊢
      by_cases h1 : resp.StatusCode ≠ 200
      · simp [h1] at hok
      · rw [if_neg h1] at hok ⊢
        split at hok
        · simp at hok
        · rename_i h2
          rw [if_neg h2]
          by_cases h3 : resp.ContentLength = 0
          · simp [h3] at hok
          · rw [if_neg h3] at hok ⊢
            by_cases h4 : resp.ContentLength > maxPlaylistSizeBytes
            · simp [h4] at hok
            · rw [if_neg h4] at hok ⊢
              cases hbody : resp.Body with
              | error e => simp [hbody] at hok
              | ok bytes =>
                exact ⟨_, resp, hdo, not_not.1 h1, h3, not_lt.1 h4, hbody⟩

/-- C13, the code at the failing input: for a 200 response of an accepted
content type whose length is not declared (`ContentLength = -1`) and whose body
is one byte longer than the cap, `fetchPlaylist` returns the whole body with a
nil error. -/
theorem fetch_size_cap_failing_input :
    fetchPlaylist exampleNewRequest (fun _ => Except.ok chunkedResponse)
        "https://example.com/manifest.mpd" =
        { text := oversizedBody, err := none } ∧
      (oversizedBody.length : Int) = 10 * 1024 * 1024 + 1 ∧
      ¬ ((oversizedBody.length : Int) ≤ maxPlaylistSizeBytes) := by
  refine ⟨?_, ?_, ?_⟩
  · simp [fetchPlaylist, exampleNewRequest, chunkedResponse, mpegDashMPDMimeType,
      maxPlaylistSizeBytes]
  · rw [length_oversizedBody]; rfl
  · rw [length_oversizedBody]; omega

/-! ## URL validation -/

/-- C14: `parseUrl` succeeds if and only if `url.ParseRequestURI` accepts the
text and the parsed scheme is "http", "https" or "file"; on success it returns
the parsed URL unchanged; a parsed URL with any other scheme, and a text the
parser rejects, give an error and a nil URL. -/
theorem scheme_allow_list (ParseRequestURI : String → Except String URL) (rawUrl : String) :
    ((parseUrl ParseRequestURI rawUrl).err = none ↔
        ∃ u : URL, ParseRequestURI rawUrl = Except.ok u ∧
          (u.Scheme = "http" ∨ u.Scheme = "https" ∨ u.Scheme = "file")) ∧
      (∀ u : URL, ParseRequestURI rawUrl = Except.ok u →
        u.Scheme = "http" ∨ u.Scheme = "https" ∨ u.Scheme = "file" →
          parseUrl ParseRequestURI rawUrl = { url := some u, err := none }) ∧
      (∀ u : URL, ParseRequestURI rawUrl = Except.ok u →
        ¬ (u.Scheme = "http" ∨ u.Scheme = "https" ∨ u.Scheme = "file") →
          parseUrl ParseRequestURI rawUrl =
            { url := none, err := some ("invalid url scheme: " ++ u.Scheme) }) ∧
      (∀ e : String, ParseRequestURI rawUrl = Except.error e →
        parseUrl ParseRequestURI rawUrl =
          { url := none, err := some ("failed to parse url: " ++ e) }) ∧
      ((parseUrl ParseRequestURI rawUrl).err ≠ none →
        (parseUrl ParseRequestURI rawUrl).url = none) := by
  have hgood : ∀ u : URL, ParseRequestURI rawUrl = Except.ok u →
      u.Scheme = "http" ∨ u.Scheme = "https" ∨ u.Scheme = "file" →
        parseUrl ParseRequestURI rawUrl = { url := some u, err := none } := by
    intro u hu hs
    have hn : ¬ (u.Scheme ≠ "http" ∧ u.Scheme ≠ "https" ∧ u.Scheme ≠ "file") := by
      rintro ⟨h1, h2, h3⟩
      rcases hs with h | h | h
      · exact h1 h
      · exact h2 h
      · exact h3 h
    simp only [parseUrl, hu, if_neg hn]
  have hbad : ∀ u : URL, ParseRequestURI rawUrl = Except.ok u →
      ¬ (u.Scheme = "http" ∨ u.Scheme = "https" ∨ u.Scheme = "file") →
        parseUrl ParseRequestURI rawUrl =
          { url := none, err := some ("invalid url scheme: " ++ u.Scheme) } := by
    intro u hu hs
    have hp : u.Scheme ≠ "http" ∧ u.Scheme ≠ "https" ∧ u.Scheme ≠ "file" :=
      ⟨fun h => hs (Or.inl h), fun h => hs (Or.inr (Or.inl h)),
        fun h => hs (Or.inr (Or.inr h))⟩
    simp only [parseUrl, hu, if_pos hp]
  have herr : ∀ e : String, ParseRequestURI rawUrl = Except.error e →
      parseUrl ParseRequestURI rawUrl =
        { url := none, err := some ("failed to parse url: " ++ e) } := by
    intro e he
    simp only [parseUrl, he]
  refine ⟨?_, hgood, hbad, herr, ?_⟩
  · constructor
    · intro hnone
      cases hp : ParseRequestURI rawUrl with
      | error e => rw [herr e hp] at hnone; exact absurd hnone (by simp)
      | ok u =>
        by_cases hs : u.Scheme = "http" ∨ u.Scheme = "https" ∨ u.Scheme = "file"
        · exact ⟨u, rfl, hs⟩
        · rw [hbad u hp hs] at hnone; exact absurd hnone (by simp)
    · rintro ⟨u, hu, hs⟩
      rw [hgood u hu hs]
  · intro hne
    cases hp : ParseRequestURI rawUrl with
    | error e => rw [herr e hp]
    | ok u =>
      by_cases hs : u.Scheme = "http" ∨ u.Scheme = "https" ∨ u.Scheme = "file"
      · rw [hgood u hp hs] at hne; exact absurd rfl hne
      · rw [hbad u hp hs]

/-- C14 at the inputs of `TestParseURL`, with the parser results recorded in
`exampleParseRequestURI`: the https URL is returned as parsed, the ftp URL, the
empty text and "not-a-url" give an error and a nil URL. -/
theorem scheme_allow_list_witness :
    (parseUrl exampleParseRequestURI "https://example.com/manifest.mpd" =
        { url := some { Scheme := "https", Host := "example.com", Path := "/manifest.mpd",
                        RawQuery := "", Fragment := "" },
          err := none }) ∧
      (parseUrl exampleParseRequestURI "ftp://example.com/manifest.mpd" =
        { url := none, err := some ("invalid url scheme: " ++ "ftp") }) ∧
      (parseUrl exampleParseRequestURI "").url = none ∧
      (parseUrl exampleParseRequestURI "not-a-url").url = none :=
  ⟨(scheme_allow_list exampleParseRequestURI "https://example.com/manifest.mpd").2.1 _ rfl
      (Or.inr (Or.inl rfl)),
    (scheme_allow_list exampleParseRequestURI "ftp://example.com/manifest.mpd").2.2.1
      { Scheme := "ftp", Host := "example.com", Path := "/manifest.mpd", RawQuery := "",
        Fragment := "" } rfl (by decide),
    (scheme_allow_list exampleParseRequestURI "").2.2.2.2 (by decide),
    (scheme_allow_list exampleParseRequestURI "not-a-url").2.2.2.2 (by decide)⟩

/-! ## Channels precedence and resolution positivity -/

/-- C15, counterexample: the audio AdaptationSet `sentinelChannelSet` has a
channel descriptor with a present, non-empty Value, the text "unknown"; the
comma-join of its descriptor Values is "unknown", yet the stream produced for
its Representation has the Representation's channel configuration "2". -/
theorem channels_precedence_counterexample :
    isAudio sentinelChannelSet ∧
      (∃ d ∈ sentinelChannelSet.AudioChannelConfiguration,
        ∃ v : String, d.Value = some v ∧ v ≠ "") ∧
      joinWithComma (presentValues sentinelChannelSet.AudioChannelConfiguration) = "unknown" ∧
      (parsePlaylist
          (fun _ => Except.ok { Periods := [{ AdaptationSets := [sentinelChannelSet] }] })
          "").summary.Audios.map AudioStream.Channels = ["2"] ∧
      "2" ≠ "unknown" := by
  decide

/-- C15, amended: for an audio-classified AdaptationSet having at least one
channel descriptor with a present, non-empty Value, those Values not being the
single text "unknown", the loop body appends one stream per Representation,
and the channels field of the stream built for every Representation, whatever
its own channel configuration, is the comma-join of those Values in their
original order. -/
theorem channels_precedence (st : State) (i : Nat) (adaptationSet : AdaptationSet)
    (haudio : isAudio adaptationSet)
    (hsome : ∃ d ∈ adaptationSet.AudioChannelConfiguration,
      ∃ v : String, d.Value = some v ∧ v ≠ "")
    (hunk : presentValues adaptationSet.AudioChannelConfiguration ≠ ["unknown"]) :
    (adaptationSetBody st (i, adaptationSet)).summary.Audios =
        st.summary.Audios ++ adaptationSet.Representations.map (audioStreamOf adaptationSet) ∧
      ∀ rep : Representation,
        (audioStreamOf adaptationSet rep).Channels =
          joinWithComma (presentValues adaptationSet.AudioChannelConfiguration) := by
  obtain ⟨d, hd, v, hv, hne⟩ := hsome
  have hmem : v ∈ presentValues adaptationSet.AudioChannelConfiguration :=
    (mem_presentValues _ v).2 ⟨⟨d, hd, hv⟩, hne⟩
  have hnil : presentValues adaptationSet.AudioChannelConfiguration ≠ [] :=
    List.ne_nil_of_mem hmem
  have hdesc : extractChannelDescriptors adaptationSet.AudioChannelConfiguration =
      joinWithComma (presentValues adaptationSet.AudioChannelConfiguration) := by
    rw [extractChannelDescriptors_eq, if_neg hnil]
  have hnot : extractChannelDescriptors adaptationSet.AudioChannelConfiguration ≠ unknown := by
    rw [hdesc]
    intro h
    exact hunk ((joinWithComma_eq_unknown _ hnil).1 h)
  refine ⟨adaptationSetBody_isAudio st i adaptationSet haudio, fun rep => ?_⟩
  rw [audioStreamOf_Channels, if_neg hnot, hdesc]

/-- C15, amended, at `describedChannelSet`: descriptors "A", "" and "B" give
channels "A,B" although the Representation has channel configuration "2". -/
theorem channels_precedence_witness :
    isAudio describedChannelSet ∧
      (∃ d ∈ describedChannelSet.AudioChannelConfiguration,
        ∃ v : String, d.Value = some v ∧ v ≠ "") ∧
      presentValues describedChannelSet.AudioChannelConfiguration ≠ ["unknown"] ∧
      (adaptationSetBody initialState (0, describedChannelSet)).summary.Audios =
        initialState.summary.Audios ++
          describedChannelSet.Representations.map (audioStreamOf describedChannelSet) ∧
      (∀ rep : Representation, (audioStreamOf describedChannelSet rep).Channels = "A,B") :=
  ⟨by decide, by decide, by decide,
    (channels_precedence initialState 0 describedChannelSet (by decide) (by decide)
      (by decide)).1,
    fun rep =>
      ((channels_precedence initialState 0 describedChannelSet (by decide) (by decide)
        (by decide)).2 rep).trans (by decide)⟩

/-- C16, counterexample: width -1 and height 5 are 64-bit values, the result
"-1x5" is not "unknown", and the width is not greater than zero. -/
theorem resolution_positivity_counterexample :
    extractResolution (some (-1)) (some 5) = "-1x5" ∧ "-1x5" ≠ "unknown" ∧
      ¬ ((0 : Int) < -1) ∧ (-(2 ^ 63) : Int) ≤ -1 ∧ (-1 : Int) < 2 ^ 63 := by
  decide

/-- C16, amended: whenever `extractResolution` returns a string other than
"unknown", both width and height are present and different from zero, hence
strictly greater than zero when they are not negative. -/
theorem resolution_positivity (width height : Option Int)
    (hres : extractResolution width height ≠ "unknown") :
    ∃ w h : Int, width = some w ∧ height = some h ∧ w ≠ 0 ∧ h ≠ 0 ∧
      (0 ≤ w → 0 < w) ∧ (0 ≤ h → 0 < h) := by
  cases width with
  | none => exact absurd rfl hres
  | some w =>
    cases height with
    | none => exact absurd rfl hres
    | some h =>
      by_cases h0 : w = 0 ∨ h = 0
      · exact absurd (by simp only [extractResolution, if_pos h0]; rfl) hres
      · have hw : w ≠ 0 := fun e => h0 (Or.inl e)
        have hh : h ≠ 0 := fun e => h0 (Or.inr e)
        exact ⟨w, h, rfl, rfl, hw, hh, fun _ => by omega, fun _ => by omega⟩

/-- C16, amended, at width 1920 and height 1080: the result is "1920x1080",
not "unknown", and both values are present and positive. -/
theorem resolution_positivity_witness :
    extractResolution (some 1920) (some 1080) ≠ "unknown" ∧
      ∃ w h : Int, some (1920 : Int) = some w ∧ some (1080 : Int) = some h ∧ w ≠ 0 ∧ h ≠ 0 ∧
        (0 ≤ w → 0 < w) ∧ (0 ≤ h → 0 < h) :=
  ⟨by decide, resolution_positivity (some 1920) (some 1080) (by decide)⟩

/-! ## No nil pointer is read -/

theorem orElse_true (b : Except Fault Bool) : orElse (Except.ok true) b = Except.ok true := rfl

theorem orElse_false (b : Except Fault Bool) : orElse (Except.ok false) b = b := rfl

theorem andAlso_true (b : Except Fault Bool) : andAlso (Except.ok true) b = b := rfl

theorem andAlso_false (b : Except Fault Bool) :
    andAlso (Except.ok false) b = Except.ok false := rfl

theorem isNil_none {α : Type} : isNil (none : Option α) = Except.ok true := rfl

theorem isNil_some {α : Type} (a : α) : isNil (some a) = Except.ok false := rfl

theorem derefEq_some {α : Type} [DecidableEq α] (a v : α) :
    derefEq (some a) v = Except.ok (decide (a = v)) := rfl

theorem deref_some {α : Type} (a : α) : deref (some a) = Except.ok a := rfl

theorem ok_bind {α β : Type} (a : α) (f : α → Except Fault β) :
    (Except.ok a >>= f) = f a := rfl

theorem extractCodecChecked_eq (codecs : Option String) :
    extractCodecChecked codecs = Except.ok (extractCodec codecs) := by
  cases codecs with
  | none => rfl
  | some c =>
    by_cases h : c = ""
    · simp [extractCodecChecked, extractCodec, isNil_some, orElse_false, derefEq_some, h,
        ok_bind, pure, Except.pure]
    · simp [extractCodecChecked, extractCodec, isNil_some, orElse_false, derefEq_some, h,
        ok_bind, deref_some]

theorem extractLanguageChecked_eq (lang : Option String) :
    extractLanguageChecked lang = Except.ok (extractLanguage lang) := by
  cases lang with
  | none => rfl
  | some c =>
    by_cases h : c = ""
    · simp [extractLanguageChecked, extractLanguage, isNil_some, orElse_false, derefEq_some, h,
        ok_bind, pure, Except.pure]
    · simp [extractLanguageChecked, extractLanguage, isNil_some, orElse_false, derefEq_some, h,
        ok_bind, deref_some]

theorem extractBitrateChecked_eq (bandwidth : Option Int) :
    extractBitrateChecked bandwidth = Except.ok (extractBitrate bandwidth) := by
  cases bandwidth with
  | none => rfl
  | some b =>
    by_cases h : b = 0
    · simp [extractBitrateChecked, extractBitrate, isNil_some, orElse_false, derefEq_some, h,
        ok_bind, pure, Except.pure]
    · simp [extractBitrateChecked, extractBitrate, isNil_some, orElse_false, derefEq_some, h,
        ok_bind, deref_some, pure, Except.pure]

theorem extractResolutionChecked_eq (width height : Option Int) :
    extractResolutionChecked width height = Except.ok (extractResolution width height) := by
  cases width with
  | none => rfl
  | some w =>
    cases height with
    | none => rfl
    | some h =>
      by_cases hw : w = 0
      · simp [extractResolutionChecked, extractResolution, isNil_some, orElse_false,
          orElse_true, derefEq_some, hw, ok_bind, pure, Except.pure]
      · by_cases hh : h = 0
        · simp [extractResolutionChecked, extractResolution, isNil_some, orElse_false,
            derefEq_some, hw, hh, ok_bind, pure, Except.pure]
        · simp [extractResolutionChecked, extractResolution, isNil_some, orElse_false,
            derefEq_some, hw, hh, ok_bind, deref_some, pure, Except.pure]

theorem extractChannelConfigurationChecked_eq (cc : Option AudioChannelConfiguration) :
    extractChannelConfigurationChecked cc = Except.ok (extractChannelConfiguration cc) := by
  cases cc with
  | none => rfl
  | some cc =>
    obtain ⟨scheme, value⟩ := cc
    cases value with
    | none => rfl
    | some v =>
      by_cases h : v = ""
      · simp [extractChannelConfigurationChecked, extractChannelConfiguration, isNil_some,
          orElse_false, derefEq_some, deref_some, h, ok_bind, pure, Except.pure]
      · simp [extractChannelConfigurationChecked, extractChannelConfiguration, isNil_some,
          orElse_false, derefEq_some, deref_some, h, ok_bind]

theorem foldlM_ok {σ α : Type} (f : σ → α → Except Fault σ) (g : σ → α → σ)
    (h : ∀ s a, f s a = Except.ok (g s a)) (l : List α) (s : σ) :
    l.foldlM f s = Except.ok (l.foldl g s) := by
  induction l generalizing s with
  | nil => rfl
  | cons a rest ih => rw [List.foldlM_cons, h, ok_bind, ih, List.foldl_cons]

theorem collectChannelChecked_eq (channels : List String) (descriptor : DescriptorType) :
    collectChannelChecked channels descriptor =
      Except.ok
        (match descriptor.Value with
          | none => channels
          | some v => if v = "" then channels else channels ++ [v]) := by
  obtain ⟨scheme, value, id⟩ := descriptor
  cases value with
  | none => rfl
  | some v =>
    by_cases h : v = ""
    · simp [collectChannelChecked, isNil_some, orElse_false, derefEq_some, h, ok_bind, pure,
        Except.pure]
    · simp [collectChannelChecked, isNil_some, orElse_false, derefEq_some, deref_some, h,
        ok_bind, pure, Except.pure]

theorem extractChannelDescriptorsChecked_eq (descriptors : List DescriptorType) :
    extractChannelDescriptorsChecked descriptors =
      Except.ok (extractChannelDescriptors descriptors) := by
  unfold extractChannelDescriptorsChecked
  rw [foldlM_ok _ _ collectChannelChecked_eq, ok_bind]
  by_cases h : (collectChannels descriptors).length = 0
  · simp only [extractChannelDescriptors]
    rw [if_pos h]
    unfold collectChannels at h
    rw [if_pos h]
    rfl
  · simp only [extractChannelDescriptors]
    rw [if_neg h]
    unfold collectChannels at h
    rw [if_neg h]
    rfl

theorem audioBodyChecked_eq (adaptationSet : AdaptationSet) (summary : ManifestSummary)
    (rep : Representation) :
    audioBodyChecked adaptationSet summary rep =
      Except.ok (audioBody adaptationSet summary rep) := by
  unfold audioBodyChecked
  rw [extractCodecChecked_eq, ok_bind, extractChannelDescriptorsChecked_eq]
  by_cases hc : extractCodec adaptationSet.Codecs = "unknown"
  · by_cases hd : extractChannelDescriptors adaptationSet.AudioChannelConfiguration = "unknown"
    · simp only [if_pos hc, if_pos hd, extractCodecChecked_eq, ok_bind,
        extractChannelConfigurationChecked_eq, extractBitrateChecked_eq,
        extractLanguageChecked_eq, audioBody, audioStreamOf]
      rfl
    · simp only [if_pos hc, if_neg hd, extractCodecChecked_eq, ok_bind,
        extractBitrateChecked_eq, extractLanguageChecked_eq, audioBody, audioStreamOf]
      rfl
  · by_cases hd : extractChannelDescriptors adaptationSet.AudioChannelConfiguration = "unknown"
    · simp only [if_neg hc, if_pos hd, ok_bind, extractChannelConfigurationChecked_eq,
        extractBitrateChecked_eq, extractLanguageChecked_eq, audioBody, audioStreamOf]
      rfl
    · simp only [if_neg hc, if_neg hd, ok_bind, extractBitrateChecked_eq,
        extractLanguageChecked_eq, audioBody, audioStreamOf]
      rfl

theorem videoBodyChecked_eq (adaptationSet : AdaptationSet) (summary : ManifestSummary)
    (rep : Representation) :
    videoBodyChecked adaptationSet summary rep =
      Except.ok (videoBody adaptationSet summary rep) := by
  unfold videoBodyChecked
  rw [extractCodecChecked_eq, ok_bind]
  by_cases hc : extractCodec adaptationSet.Codecs = "unknown"
  · simp only [if_pos hc, extractCodecChecked_eq, ok_bind, extractBitrateChecked_eq,
      extractResolutionChecked_eq, videoBody, videoStreamOf]
    rfl
  · simp only [if_neg hc, ok_bind, extractBitrateChecked_eq, extractResolutionChecked_eq,
      videoBody, videoStreamOf]
    rfl

theorem andAlso_derefEq (ct mt a b : String) :
    andAlso (derefEq (some ct) a) (derefEq (some mt) b) =
      Except.ok (decide (ct = a ∧ mt = b)) := by
  by_cases h1 : ct = a
  · by_cases h2 : mt = b
    · simp [derefEq_some, h1, h2, andAlso_true]
    · simp [derefEq_some, h1, h2, andAlso_true]
  · simp [derefEq_some, h1, andAlso_false]

theorem adaptationSetBodyChecked_eq (st : State) (entry : Nat × AdaptationSet) :
    adaptationSetBodyChecked st entry = Except.ok (adaptationSetBody st entry) := by
  obtain ⟨i, ⟨ct, mt, codecs, lang, descs, reps⟩⟩ := entry
  cases ct with
  | none => rfl
  | some ct =>
    cases mt with
    | none => rfl
    | some mt =>
      simp only [adaptationSetBodyChecked, adaptationSetBody, isNil_some, orElse_false, ok_bind,
        andAlso_derefEq, decide_eq_true_eq, foldlM_ok _ _ (audioBodyChecked_eq _),
        foldlM_ok _ _ (videoBodyChecked_eq _)]
      by_cases ha : ct = audioContentType ∧ mt = audioMimeType
      · by_cases hv : ct = videoContentType ∧ mt = videoMimeType
        · simp only [if_pos ha, if_pos hv, ok_bind]
          rfl
        · simp only [if_pos ha, if_neg hv, ok_bind]
          rfl
      · by_cases hv : ct = videoContentType ∧ mt = videoMimeType
        · simp only [if_neg ha, if_pos hv, ok_bind]
          rfl
        · simp only [if_neg ha, if_neg hv, ok_bind]
          rfl

theorem periodBodyChecked_eq (st : State) (period : Period) :
    periodBodyChecked st period = Except.ok (periodBody st period) :=
  foldlM_ok _ _ adaptationSetBodyChecked_eq _ st

theorem traverseChecked_eq (mpd : MPD) (st : State) :
    traverseChecked mpd st = Except.ok (traverse mpd st) :=
  foldlM_ok _ _ periodBodyChecked_eq _ st

/-- C18: when the manifest deserializes to a tree, whatever optional fields of
its AdaptationSets and Representations are absent, `parsePlaylist` with every
pointer read made explicit runs without reading through a nil pointer and
yields exactly what `parsePlaylist` yields, a summary with a nil error; each
extractor likewise returns its result for every input, absent ones
included. -/
theorem extraction_total (ReadFromString : String → Except String MPD)
    (manifestBytes : String) (mpd : MPD)
    (hread : ReadFromString manifestBytes = Except.ok mpd) :
    parsePlaylistChecked ReadFromString manifestBytes =
        Except.ok (parsePlaylist ReadFromString manifestBytes) ∧
      (parsePlaylist ReadFromString manifestBytes).err = none ∧
      (∀ codecs : Option String,
        extractCodecChecked codecs = Except.ok (extractCodec codecs)) ∧
      (∀ width height : Option Int,
        extractResolutionChecked width height = Except.ok (extractResolution width height)) ∧
      (∀ bandwidth : Option Int,
        extractBitrateChecked bandwidth = Except.ok (extractBitrate bandwidth)) ∧
      (∀ descriptors : List DescriptorType,
        extractChannelDescriptorsChecked descriptors =
          Except.ok (extractChannelDescriptors descriptors)) ∧
      (∀ channelConfiguration : Option AudioChannelConfiguration,
        extractChannelConfigurationChecked channelConfiguration =
          Except.ok (extractChannelConfiguration channelConfiguration)) ∧
      (∀ lang : Option String,
        extractLanguageChecked lang = Except.ok (extractLanguage lang)) := by
  refine ⟨?_, (parsePlaylist_ok ReadFromString manifestBytes mpd hread).2,
    extractCodecChecked_eq, extractResolutionChecked_eq, extractBitrateChecked_eq,
    extractChannelDescriptorsChecked_eq, extractChannelConfigurationChecked_eq,
    extractLanguageChecked_eq⟩
  simp only [parsePlaylistChecked, parsePlaylist, hread, traverseChecked_eq, ok_bind]
  rfl

/-- C18 at a document with every kind of absence: `textSet`, `absentMimeSet`
and `exampleAudioSet` (a Representation without channel configuration, one
whose configuration has no Value, one without Bandwidth) are traversed without
a fault and with a nil error. -/
theorem extraction_total_witness :
    (fun _ => Except.ok
          { Periods := [{ AdaptationSets := [textSet, absentMimeSet, exampleAudioSet] }] } :
        String → Except String MPD) "" =
        Except.ok
          { Periods := [{ AdaptationSets := [textSet, absentMimeSet, exampleAudioSet] }] } ∧
      parsePlaylistChecked
          (fun _ => Except.ok
            { Periods := [{ AdaptationSets := [textSet, absentMimeSet, exampleAudioSet] }] })
          "" =
        Except.ok
          (parsePlaylist
            (fun _ => Except.ok
              { Periods := [{ AdaptationSets := [textSet, absentMimeSet, exampleAudioSet] }] })
            "") ∧
      (parsePlaylist
          (fun _ => Except.ok
            { Periods := [{ AdaptationSets := [textSet, absentMimeSet, exampleAudioSet] }] })
          "").err = none :=
  ⟨rfl,
    (extraction_total
      (fun _ => Except.ok
        { Periods := [{ AdaptationSets := [textSet, absentMimeSet, exampleAudioSet] }] })
      "" { Periods := [{ AdaptationSets := [textSet, absentMimeSet, exampleAudioSet] }] } rfl).1,
    (extraction_total
      (fun _ => Except.ok
        { Periods := [{ AdaptationSets := [textSet, absentMimeSet, exampleAudioSet] }] })
      "" { Periods := [{ AdaptationSets := [textSet, absentMimeSet, exampleAudioSet] }] }
      rfl).2.1⟩

/-! ## Sentinel policy: the sentinel is "unknown" -/

theorem mem_videosInDocumentOrder_tree (periods : List Period) (v : VideoStream)
    (hv : v ∈ videosInDocumentOrder periods) :
    ∃ period ∈ periods, ∃ adaptationSet ∈ period.AdaptationSets,
      ∃ rep ∈ adaptationSet.Representations,
        isVideo adaptationSet ∧ v = videoStreamOf adaptationSet rep := by
  simp only [videosInDocumentOrder, List.mem_flatMap] at hv
  obtain ⟨period, hp, adaptationSet, hset, hmem⟩ := hv
  by_cases h : isVideo adaptationSet
  · simp only [videosOf, if_pos h, List.mem_map] at hmem
    obtain ⟨rep, hrep, heq⟩ := hmem
    exact ⟨period, hp, adaptationSet, hset, rep, hrep, h, heq.symm⟩
  · simp [videosOf, h] at hmem

theorem mem_audiosInDocumentOrder_tree (periods : List Period) (a : AudioStream)
    (ha : a ∈ audiosInDocumentOrder periods) :
    ∃ period ∈ periods, ∃ adaptationSet ∈ period.AdaptationSets,
      ∃ rep ∈ adaptationSet.Representations,
        isAudio adaptationSet ∧ a = audioStreamOf adaptationSet rep := by
  simp only [audiosInDocumentOrder, List.mem_flatMap] at ha
  obtain ⟨period, hp, adaptationSet, hset, hmem⟩ := ha
  by_cases h : isAudio adaptationSet
  · simp only [audiosOf, if_pos h, List.mem_map] at hmem
    obtain ⟨rep, hrep, heq⟩ := hmem
    exact ⟨period, hp, adaptationSet, hset, rep, hrep, h, heq.symm⟩
  · simp [audiosOf, h] at hmem

theorem extractCodec_cases (codecs : Option String) :
    extractCodec codecs = "unknown" ∨ codecs = some (extractCodec codecs) := by
  cases codecs with
  | none => exact Or.inl rfl
  | some c =>
    by_cases h : c = ""
    · left; simp [extractCodec, h, unknown]
    · right; rw [extractCodec_present c h]

theorem extractLanguage_absent (lang : Option String) (h : lang = none ∨ lang = some "") :
    extractLanguage lang = "unknown" := by
  rcases h with rfl | rfl <;> simp [extractLanguage, unknown]

theorem extractLanguage_cases (lang : Option String) :
    extractLanguage lang = "unknown" ∨ lang = some (extractLanguage lang) := by
  cases lang with
  | none => exact Or.inl rfl
  | some l =>
    by_cases h : l = ""
    · left; simp [extractLanguage, h, unknown]
    · right; simp [extractLanguage, h]

theorem extractBitrate_absent (bandwidth : Option Int)
    (h : bandwidth = none ∨ bandwidth = some 0) : extractBitrate bandwidth = "unknown" := by
  rcases h with rfl | rfl <;> simp [extractBitrate, unknown]

theorem extractBitrate_cases (bandwidth : Option Int) :
    extractBitrate bandwidth = "unknown" ∨
      ∃ b : Int, bandwidth = some b ∧ b ≠ 0 ∧ extractBitrate bandwidth = FormatInt b := by
  cases bandwidth with
  | none => exact Or.inl rfl
  | some b =>
    by_cases h : b = 0
    · left; simp [extractBitrate, h, unknown]
    · right; exact ⟨b, rfl, h, by simp [extractBitrate, h]⟩

theorem extractResolution_absent (width height : Option Int)
    (h : width = none ∨ height = none ∨ width = some 0 ∨ height = some 0) :
    extractResolution width height = "unknown" := by
  cases width with
  | none => rfl
  | some w =>
    cases height with
    | none => rfl
    | some x =>
      have h0 : w = 0 ∨ x = 0 := by
        rcases h with hc | hc | hc | hc
        · exact absurd hc (by simp)
        · exact absurd hc (by simp)
        · exact Or.inl (Option.some.inj hc)
        · exact Or.inr (Option.some.inj hc)
      simp only [extractResolution, if_pos h0]
      rfl

theorem extractResolution_cases (width height : Option Int) :
    extractResolution width height = "unknown" ∨
      ∃ w h : Int, width = some w ∧ height = some h ∧ w ≠ 0 ∧ h ≠ 0 ∧
        extractResolution width height = FormatInt w ++ "x" ++ FormatInt h := by
  cases width with
  | none => exact Or.inl rfl
  | some w =>
    cases height with
    | none => exact Or.inl rfl
    | some x =>
      by_cases h0 : w = 0 ∨ x = 0
      · left
        simp only [extractResolution, if_pos h0]
        rfl
      · right
        exact ⟨w, x, rfl, rfl, fun e => h0 (Or.inl e), fun e => h0 (Or.inr e),
          by simp only [extractResolution, if_neg h0]⟩

theorem extractChannelConfiguration_absent (cc : Option AudioChannelConfiguration)
    (h : cc = none ∨ ∃ c : AudioChannelConfiguration, cc = some c ∧
      (c.Value = none ∨ c.Value = some "")) :
    extractChannelConfiguration cc = "unknown" := by
  rcases h with rfl | ⟨c, rfl, hv⟩
  · rfl
  · rcases hv with hv | hv <;> simp [extractChannelConfiguration, hv, unknown]

theorem extractChannelConfiguration_cases (cc : Option AudioChannelConfiguration) :
    extractChannelConfiguration cc = "unknown" ∨
      ∃ c : AudioChannelConfiguration, cc = some c ∧
        c.Value = some (extractChannelConfiguration cc) := by
  cases cc with
  | none => exact Or.inl rfl
  | some c =>
    cases hv : c.Value with
    | none => left; simp [extractChannelConfiguration, hv, unknown]
    | some v =>
      by_cases h : v = ""
      · left; simp [extractChannelConfiguration, hv, h, unknown]
      · right; exact ⟨c, rfl, by simp [extractChannelConfiguration, hv, h]⟩

theorem extractChannelDescriptors_absent (descriptors : List DescriptorType)
    (h : ∀ d ∈ descriptors, d.Value = none ∨ d.Value = some "") :
    extractChannelDescriptors descriptors = "unknown" := by
  rw [extractChannelDescriptors_eq, if_pos ((presentValues_eq_nil_iff descriptors).2 h)]
  rfl

theorem videoStreamOf_sentinel (adaptationSet : AdaptationSet) (rep : Representation) :
    ((adaptationSet.Codecs = none ∨ adaptationSet.Codecs = some "") →
        (rep.Codecs = none ∨ rep.Codecs = some "") →
          (videoStreamOf adaptationSet rep).Codec = "unknown") ∧
      (rep.Bandwidth = none ∨ rep.Bandwidth = some 0 →
        (videoStreamOf adaptationSet rep).Bitrate = "unknown") ∧
      (rep.Width = none ∨ rep.Height = none ∨ rep.Width = some 0 ∨ rep.Height = some 0 →
        (videoStreamOf adaptationSet rep).Resolution = "unknown") ∧
      ((videoStreamOf adaptationSet rep).Codec = "unknown" ∨
        adaptationSet.Codecs = some (videoStreamOf adaptationSet rep).Codec ∨
        rep.Codecs = some (videoStreamOf adaptationSet rep).Codec) ∧
      ((videoStreamOf adaptationSet rep).Bitrate = "unknown" ∨
        ∃ b : Int, rep.Bandwidth = some b ∧ b ≠ 0 ∧
          (videoStreamOf adaptationSet rep).Bitrate = FormatInt b) ∧
      ((videoStreamOf adaptationSet rep).Resolution = "unknown" ∨
        ∃ w h : Int, rep.Width = some w ∧ rep.Height = some h ∧ w ≠ 0 ∧ h ≠ 0 ∧
          (videoStreamOf adaptationSet rep).Resolution = FormatInt w ++ "x" ++ FormatInt h) := by
  refine ⟨?_, extractBitrate_absent _, extractResolution_absent _ _, ?_,
    extractBitrate_cases _, extractResolution_cases _ _⟩
  · intro hset hrep
    rw [videoStreamOf_Codec, codec_of_absent _ _ hset, extractCodec_absent _ hrep]
    rfl
  · rw [videoStreamOf_Codec]
    split
    · rcases extractCodec_cases rep.Codecs with h | h
      · exact Or.inl h
      · exact Or.inr (Or.inr h)
    · rcases extractCodec_cases adaptationSet.Codecs with h | h
      · exact Or.inl h
      · exact Or.inr (Or.inl h)

theorem audioStreamOf_sentinel (adaptationSet : AdaptationSet) (rep : Representation) :
    ((adaptationSet.Codecs = none ∨ adaptationSet.Codecs = some "") →
        (rep.Codecs = none ∨ rep.Codecs = some "") →
          (audioStreamOf adaptationSet rep).Codec = "unknown") ∧
      (rep.Bandwidth = none ∨ rep.Bandwidth = some 0 →
        (audioStreamOf adaptationSet rep).Bitrate = "unknown") ∧
      ((∀ d ∈ adaptationSet.AudioChannelConfiguration, d.Value = none ∨ d.Value = some "") →
        (rep.AudioChannelConfiguration = none ∨
          ∃ c : AudioChannelConfiguration, rep.AudioChannelConfiguration = some c ∧
            (c.Value = none ∨ c.Value = some "")) →
          (audioStreamOf adaptationSet rep).Channels = "unknown") ∧
      (adaptationSet.Lang = none ∨ adaptationSet.Lang = some "" →
        (audioStreamOf adaptationSet rep).Language = "unknown") ∧
      ((audioStreamOf adaptationSet rep).Codec = "unknown" ∨
        adaptationSet.Codecs = some (audioStreamOf adaptationSet rep).Codec ∨
        rep.Codecs = some (audioStreamOf adaptationSet rep).Codec) ∧
      ((audioStreamOf adaptationSet rep).Bitrate = "unknown" ∨
        ∃ b : Int, rep.Bandwidth = some b ∧ b ≠ 0 ∧
          (audioStreamOf adaptationSet rep).Bitrate = FormatInt b) ∧
      ((audioStreamOf adaptationSet rep).Channels = "unknown" ∨
        (presentValues adaptationSet.AudioChannelConfiguration ≠ [] ∧
          (audioStreamOf adaptationSet rep).Channels =
            joinWithComma (presentValues adaptationSet.AudioChannelConfiguration)) ∨
        ∃ c : AudioChannelConfiguration, rep.AudioChannelConfiguration = some c ∧
          c.Value = some (audioStreamOf adaptationSet rep).Channels) ∧
      ((audioStreamOf adaptationSet rep).Language = "unknown" ∨
        adaptationSet.Lang = some (audioStreamOf adaptationSet rep).Language) := by
  refine ⟨?_, extractBitrate_absent _, ?_, extractLanguage_absent _, ?_,
    extractBitrate_cases _, ?_, extractLanguage_cases _⟩
  · intro hset hrep
    rw [audioStreamOf_Codec, codec_of_absent _ _ hset, extractCodec_absent _ hrep]
    rfl
  · intro hdesc hrep
    have hd : extractChannelDescriptors adaptationSet.AudioChannelConfiguration = unknown :=
      extractChannelDescriptors_absent _ hdesc
    rw [audioStreamOf_Channels, if_pos hd]
    exact extractChannelConfiguration_absent _ hrep
  · rw [audioStreamOf_Codec]
    split
    · rcases extractCodec_cases rep.Codecs with h | h
      · exact Or.inl h
      · exact Or.inr (Or.inr h)
    · rcases extractCodec_cases adaptationSet.Codecs with h | h
      · exact Or.inl h
      · exact Or.inr (Or.inl h)
  · rw [audioStreamOf_Channels]
    split
    · rcases extractChannelConfiguration_cases rep.AudioChannelConfiguration with h | h
      · exact Or.inl h
      · exact Or.inr (Or.inr h)
    · rename_i hne
      by_cases hnil : presentValues adaptationSet.AudioChannelConfiguration = []
      · exact absurd (by rw [extractChannelDescriptors_eq, if_pos hnil]) hne
      · right; left
        exact ⟨hnil, by rw [extractChannelDescriptors_eq, if_neg hnil]⟩

/-- C6: whatever the deserializer returns for the manifest, every field of
every VideoStream (codec, bitrate, resolution) and of every AudioStream (codec,
bitrate, channels, language) in the summary returned by `parsePlaylist` is a
non-empty string. Every such stream is built from an AdaptationSet and a
Representation of the deserialized tree, and a field that cannot be determined
from them is the string "unknown": the codec when Codecs is absent or empty at
both levels, the bitrate when Bandwidth is absent or zero, the resolution when
Width or Height is absent or zero, the channels when no descriptor and no
channel configuration has a present, non-empty Value, the language when Lang
is absent or empty. Conversely each field is either "unknown" or a value taken
from the document. -/
theorem sentinel_policy (ReadFromString : String → Except String MPD) (manifestBytes : String) :
    (∀ v ∈ (parsePlaylist ReadFromString manifestBytes).summary.Videos,
        (v.Codec ≠ "" ∧ v.Bitrate ≠ "" ∧ v.Resolution ≠ "") ∧
        ∃ mpd : MPD, ReadFromString manifestBytes = Except.ok mpd ∧
          ∃ period ∈ mpd.Periods, ∃ adaptationSet ∈ period.AdaptationSets,
            ∃ rep ∈ adaptationSet.Representations,
              isVideo adaptationSet ∧ v = videoStreamOf adaptationSet rep ∧
              ((adaptationSet.Codecs = none ∨ adaptationSet.Codecs = some "") →
                (rep.Codecs = none ∨ rep.Codecs = some "") → v.Codec = "unknown") ∧
              (rep.Bandwidth = none ∨ rep.Bandwidth = some 0 → v.Bitrate = "unknown") ∧
              (rep.Width = none ∨ rep.Height = none ∨ rep.Width = some 0 ∨
                  rep.Height = some 0 →
                v.Resolution = "unknown") ∧
              (v.Codec = "unknown" ∨ adaptationSet.Codecs = some v.Codec ∨
                rep.Codecs = some v.Codec) ∧
              (v.Bitrate = "unknown" ∨
                ∃ b : Int, rep.Bandwidth = some b ∧ b ≠ 0 ∧ v.Bitrate = FormatInt b) ∧
              (v.Resolution = "unknown" ∨
                ∃ w h : Int, rep.Width = some w ∧ rep.Height = some h ∧ w ≠ 0 ∧ h ≠ 0 ∧
                  v.Resolution = FormatInt w ++ "x" ++ FormatInt h)) ∧
      (∀ a ∈ (parsePlaylist ReadFromString manifestBytes).summary.Audios,
        (a.Codec ≠ "" ∧ a.Bitrate ≠ "" ∧ a.Channels ≠ "" ∧ a.Language ≠ "") ∧
        ∃ mpd : MPD, ReadFromString manifestBytes = Except.ok mpd ∧
          ∃ period ∈ mpd.Periods, ∃ adaptationSet ∈ period.AdaptationSets,
            ∃ rep ∈ adaptationSet.Representations,
              isAudio adaptationSet ∧ a = audioStreamOf adaptationSet rep ∧
              ((adaptationSet.Codecs = none ∨ adaptationSet.Codecs = some "") →
                (rep.Codecs = none ∨ rep.Codecs = some "") → a.Codec = "unknown") ∧
              (rep.Bandwidth = none ∨ rep.Bandwidth = some 0 → a.Bitrate = "unknown") ∧
              ((∀ d ∈ adaptationSet.AudioChannelConfiguration,
                  d.Value = none ∨ d.Value = some "") →
                (rep.AudioChannelConfiguration = none ∨
                  ∃ c : AudioChannelConfiguration, rep.AudioChannelConfiguration = some c ∧
                    (c.Value = none ∨ c.Value = some "")) →
                  a.Channels = "unknown") ∧
              (adaptationSet.Lang = none ∨ adaptationSet.Lang = some "" →
                a.Language = "unknown") ∧
              (a.Codec = "unknown" ∨ adaptationSet.Codecs = some a.Codec ∨
                rep.Codecs = some a.Codec) ∧
              (a.Bitrate = "unknown" ∨
                ∃ b : Int, rep.Bandwidth = some b ∧ b ≠ 0 ∧ a.Bitrate = FormatInt b) ∧
              (a.Channels = "unknown" ∨
                (presentValues adaptationSet.AudioChannelConfiguration ≠ [] ∧
                  a.Channels =
                    joinWithComma (presentValues adaptationSet.AudioChannelConfiguration)) ∨
                ∃ c : AudioChannelConfiguration, rep.AudioChannelConfiguration = some c ∧
                  c.Value = some a.Channels) ∧
              (a.Language = "unknown" ∨ adaptationSet.Lang = some a.Language)) := by
  rcases hread : ReadFromString manifestBytes with e | mpd
  · rw [parsePlaylist_error ReadFromString manifestBytes e hread]
    simp
  · rw [(parsePlaylist_ok ReadFromString manifestBytes mpd hread).1]
    constructor
    · intro v hv
      obtain ⟨period, hp, adaptationSet, hset, rep, hrep, hvideo, rfl⟩ :=
        mem_videosInDocumentOrder_tree _ v hv
      exact ⟨videoStreamOf_fields adaptationSet rep, mpd, rfl, period, hp, adaptationSet, hset,
        rep, hrep, hvideo, rfl, videoStreamOf_sentinel adaptationSet rep⟩
    · intro a ha
      obtain ⟨period, hp, adaptationSet, hset, rep, hrep, haudio, rfl⟩ :=
        mem_audiosInDocumentOrder_tree _ a ha
      exact ⟨audioStreamOf_fields adaptationSet rep, mpd, rfl, period, hp, adaptationSet, hset,
        rep, hrep, haudio, rfl, audioStreamOf_sentinel adaptationSet rep⟩

/-- C6 at `sparseTree`, where nothing can be determined: every field of the
video stream and of the audio stream is "unknown", and none is empty. -/
theorem sentinel_policy_witness :
    (parsePlaylist (fun _ => Except.ok sparseTree) "").summary =
        { Videos := [{ Codec := "unknown", Bitrate := "unknown", Resolution := "unknown" }]
          Audios :=
            [{ Codec := "unknown", Bitrate := "unknown", Channels := "unknown",
               Language := "unknown" }] } ∧
      (∀ v ∈ (parsePlaylist (fun _ => Except.ok sparseTree) "").summary.Videos,
        v.Codec ≠ "" ∧ v.Bitrate ≠ "" ∧ v.Resolution ≠ "") ∧
      (∀ a ∈ (parsePlaylist (fun _ => Except.ok sparseTree) "").summary.Audios,
        a.Codec ≠ "" ∧ a.Bitrate ≠ "" ∧ a.Channels ≠ "" ∧ a.Language ≠ "") :=
  ⟨by decide,
    fun v hv => ((sentinel_policy (fun _ => Except.ok sparseTree) "").1 v hv).1,
    fun a ha => ((sentinel_policy (fun _ => Except.ok sparseTree) "").2 a ha).1⟩

end Analyzer
